import Mathlib

/-!
Verification of the impilo-neotree-fhir-bridge synchronization engine.

This file gives a shallow embedding, in Lean 4, of the parts of the
TypeScript source that the verified properties talk about:

* the patient resource mapper (`src/mapping/patient.ts`, current revision
  with `phid` support) and its gender / identifier normalization;
* the observation resource mapper (`src/mapping/observation.ts`) and its
  JSON value extraction;
* the patient and observation validators
  (`src/validation/patient-validator.ts`, `observation-validator.ts`);
* the HTTP client retry loops (`openhim/client.ts` `postJson`/`putResource`)
  and the pipeline-level retry wrappers (`pushObservationsWithRetry`,
  `pushPatientWithRetry`);
* the deferred-write queue replay step (`processQueuedObservations`);
* the watermark commit decisions of the two poll loops;
* the watermark-bounded poll queries (`src/db/mysql.ts`);
* the duplicate-candidate selection of the patient identity resolver
  (`src/push/patient-verification.ts`).

Conventions used throughout the embedding:

* JavaScript strings are Lean `String`s, manipulated through their
  `List Char` representation with structurally recursive helpers
  (`lowerList`, `trimList`, ...) so that every definition evaluates by
  kernel reduction.  `Option String` models `string | null | undefined`.
* JavaScript truthiness is made explicit (`""`, `0`, `false`, `null`,
  `undefined` are falsy).
* fallible code (a `throw` site) is embedded with `Except`; code wrapped
  in `try/catch` in the source is total here with the catch branch
  inlined.
* `Date` parsing / ISO formatting is abstracted by a `DateEnv` record of
  oracles, since the claims never depend on calendar arithmetic; where a
  claim does depend on calendar validity (`isValidDate`) the check is
  implemented concretely.
* machine numbers that the claims touch are integers; the JSON float
  path (`parseFloat` / `Math.round`) is modeled on `Int`, which is
  faithful for every property stated here.
* network responses are oracles `Nat → HttpOutcome` giving the outcome
  of each attempt; database tables are Lean lists.
-/

namespace ImpiloBridge

/-- JavaScript `toLowerCase` restricted to the ASCII range, on the
character list of a string. -/
def lowerList (l : List Char) : List Char := l.map Char.toLower

/-- JavaScript `String.prototype.toLowerCase`. -/
def jsLower (s : String) : String := ⟨lowerList s.data⟩

/-- Is a character JavaScript whitespace (ASCII fragment). -/
def isWsChar (c : Char) : Bool := c = ' ' || c = '\t' || c = '\n' || c = '\r'

/-- Drop leading whitespace of a character list. -/
def dropLeadWs : List Char → List Char
  | [] => []
  | c :: cs => if isWsChar c then dropLeadWs cs else c :: cs

/-- JavaScript `String.prototype.trim` on character lists. -/
def trimList (l : List Char) : List Char :=
  (dropLeadWs (dropLeadWs l.reverse).reverse)

/-- JavaScript `String.prototype.trim`. -/
def jsTrim (s : String) : String := ⟨trimList s.data⟩

/-- JavaScript truthiness of a `string | null | undefined` value. -/
def strTruthy : Option String → Bool
  | none => false
  | some s => !s.isEmpty

/-- Truthiness of `row.x && String(row.x).trim()` as used by the patient
mapper: the field is present and its trimmed value is non-empty. -/
def truthyTrim (o : Option String) : Bool :=
  match o with
  | none => false
  | some s => !s.isEmpty && !(jsTrim s).isEmpty

/-- Do the characters of `pre` lead the list `l`. -/
def leadMatches : List Char → List Char → Bool
  | [], _ => true
  | _ :: _, [] => false
  | p :: ps, c :: cs => p = c && leadMatches ps cs

/-- JavaScript `s.startsWith(pre)`, on the character lists. -/
def strStarts (s pre : String) : Bool := leadMatches pre.data s.data

/-- FHIR administrative gender codes. -/
inductive Gender where
  | male
  | female
  | other
  | unknown
deriving DecidableEq, Repr

/-- Gender normalization of the current patient mapper
(`normalizeGender` in `src/mapping/patient.ts`):
`if (!sex) return undefined; const s = sex.toLowerCase().trim();`
then the m/male, f/female, other/o cases, else `"unknown"`. -/
def normalizeGender (sex : Option String) : Option Gender :=
  match sex with
  | none => none
  | some s =>
    if s.isEmpty then none
    else
      let t := jsTrim (jsLower s)
      if t = "m" || t = "male" then some .male
      else if t = "f" || t = "female" then some .female
      else if t = "other" || t = "o" then some .other
      else some .unknown

/-- One FHIR identifier entry `(system, value)`. -/
structure Identifier where
  system : String
  value : String
deriving DecidableEq, Repr

/-- Source row for the patient stream: the join result of
`fetchNeonatalCareWithDemographics` (`src/db/mysql.ts`,
`NeonatalCareWithDemographics`), restricted to the fields the mapper
reads.  Fields that can be SQL `NULL` (or absent) are `Option`s. -/
structure CareRow where
  neonatal_care_id : String
  patient_id : String
  phid : Option String
  impilo_neotree_id : Option String
  date_time_admission : String
  facility_id : Option String
  person_id : String
  firstname : Option String
  lastname : Option String
  birthdate : Option String
  sex : Option String
deriving DecidableEq, Repr

/-- Date oracle record: behavior of the JavaScript `Date` constructor
composed with the formatters the source uses.  `toIsoDate s` is
`new Date(s)` reformatted as `YYYY-MM-DD` (UTC), `none` for an invalid
date; `toIsoDateTime s` is `new Date(s).toISOString()`, `none` for an
invalid date. -/
structure DateEnv where
  toIsoDate : String → Option String
  toIsoDateTime : String → Option String

/-- Birth date normalization of the patient mapper (`normalizeBirthDate`):
absent input is dropped, an unparseable date is dropped, otherwise the
date is re-emitted as `YYYY-MM-DD` (through the date oracle). -/
def normalizeBirthDate (env : DateEnv) (d : Option String) : Option String :=
  match d with
  | none => none
  | some s => if s.isEmpty then none else env.toIsoDate s

/-- Identifier list built by `PatientMapper.map` (current revision):
`phid` first, then `impilo_neotree_id`, then `person_id` under both the
`person-id` and `uid` systems. -/
def buildIdentifiers (row : CareRow) : List Identifier :=
  (if truthyTrim row.phid then
    [⟨"urn:impilo:phid", jsTrim (row.phid.getD "")⟩] else [])
  ++ (if truthyTrim row.impilo_neotree_id then
    [⟨"urn:neotree:impilo-id", jsTrim (row.impilo_neotree_id.getD "")⟩] else [])
  ++ (if !row.person_id.isEmpty then
    [⟨"urn:impilo:person-id", row.person_id⟩,
     ⟨"urn:impilo:uid", row.person_id⟩] else [])

/-- Human name part of a mapped patient. -/
structure HumanName where
  use : Option String
  family : Option String
  given : List String
deriving DecidableEq, Repr

/-- Embedded FHIR patient resource (the fields the claims mention). -/
structure PatientResource where
  resourceType : String
  identifier : Option (List Identifier)
  name : List HumanName
  gender : Option Gender
  birthDate : Option String
  managingOrganization : Option String
deriving DecidableEq, Repr

/-- The patient mapper `PatientMapper.map` of `src/mapping/patient.ts`
(current revision): gender and birth-date normalization, identifier
construction in authority order, official name, managing organization
from the configured client id with fallback to the row facility. -/
def PatientMapper.map (env : DateEnv) (clientId : Option String) (row : CareRow) :
    PatientResource :=
  let gender := normalizeGender row.sex
  let birthDate := normalizeBirthDate env row.birthdate
  let given := if truthyTrim row.firstname then [jsTrim (row.firstname.getD "")] else []
  let identifiers := buildIdentifiers row
  let facilityId := if strTruthy clientId then clientId else row.facility_id
  let managingOrganization :=
    match facilityId with
    | some f => if f.isEmpty then none else some ("Organization/" ++ f)
    | none => none
  let nameObj : HumanName :=
    { use := some "official"
      family := if truthyTrim row.lastname then some (jsTrim (row.lastname.getD "")) else none
      given := given }
  { resourceType := "Patient"
    identifier := if identifiers.isEmpty then none else some identifiers
    name := [nameObj]
    gender := gender
    birthDate := birthDate
    managingOrganization := managingOrganization }

/-- Is a character an ASCII decimal digit. -/
def isDigitChar (c : Char) : Bool := '0' ≤ c && c ≤ '9'

/-- Is a character an ASCII hexadecimal digit (the class
`[0-9A-Fa-f]` of the NEOTREE-IMPILO-ID expression). -/
def isHexChar (c : Char) : Bool :=
  isDigitChar c || ('A' ≤ c && c ≤ 'F') || ('a' ≤ c && c ≤ 'f')

/-- Is a character an ASCII letter (the class `[A-Za-z]`). -/
def isLetterChar (c : Char) : Bool :=
  ('A' ≤ c && c ≤ 'Z') || ('a' ≤ c && c ≤ 'z')

/-- Split a character list at `'-'` separators, the semantics of
JavaScript `String.prototype.split("-")`: `n` separators yield `n + 1`
(possibly empty) parts. -/
def splitSep : List Char → List (List Char)
  | [] => [[]]
  | c :: cs =>
    if c = '-' then [] :: splitSep cs
    else
      match splitSep cs with
      | [] => [[c]]
      | h :: t => (c :: h) :: t

/-- Rejoin the parts produced by `splitSep` with `'-'`. -/
def joinSep : List (List Char) → List Char
  | [] => []
  | [p] => p
  | p :: ps => p ++ '-' :: joinSep ps

/-- Numeric value of a list of decimal digit characters. -/
def digitsToNat (l : List Char) : Nat :=
  l.foldl (fun acc c => acc * 10 + (c.toNat - '0'.toNat)) 0

/-- JavaScript `Number.parseInt(s, 10)`: skip leading whitespace, take
an optional sign, then the longest run of decimal digits; `none` models
`NaN` (no digits).  The bridge only applies it to all-digit strings. -/
def jsParseInt (s : String) : Option Int :=
  let l := dropLeadWs s.data
  let sign : Int :=
    match l with
    | c :: _ => if c = '-' then -1 else 1
    | [] => 1
  let rest : List Char :=
    match l with
    | c :: r => if c = '-' || c = '+' then r else c :: r
    | [] => []
  let digits := rest.takeWhile isDigitChar
  if digits.isEmpty then none else some (sign * (digitsToNat digits : Int))

/-- Shape of one part list of the NEOTREE-IMPILO-ID: two hex digits. -/
def hex2 (l : List Char) : Bool :=
  match l with
  | [a, b] => isHexChar a && isHexChar b
  | _ => false

/-- Anchored match of the identifier-format regular expression
`[0-9A-Fa-f]{2}-[0-9A-Fa-f]{2}-[0-9A-Fa-f]{2}-[0-9]{4}-[A-Za-z]-[0-9]{5}`
(`isValidNeotreeId`, `src/validation/patient-validator.ts`).  Because no
group alphabet contains the separator `'-'`, a string matches the
anchored expression exactly when splitting it at `'-'` yields six parts
of the respective shapes, which is the characterization used here. -/
def neotreeRegexTest (s : String) : Bool :=
  match splitSep s.data with
  | [a, b, c, y, p, x] =>
    hex2 a && hex2 b && hex2 c &&
    (y.length = 4 && y.all isDigitChar) &&
    (match p with | [ch] => isLetterChar ch | _ => false) &&
    (x.length = 5 && x.all isDigitChar)
  | _ => false

/-- The program-specific identifier format check
`PatientValidator.isValidNeotreeId`: the regular expression test,
then the re-split into six non-empty parts, the per-part shape checks,
and the `parseInt` year bounded to 1900..2100. -/
def isValidNeotreeId (s : String) : Bool :=
  if !neotreeRegexTest s then false
  else
    match splitSep s.data with
    | [pp, dd, ss, y, p, x] =>
      if pp.isEmpty || dd.isEmpty || ss.isEmpty
          || y.isEmpty || p.isEmpty || x.isEmpty then false
      else if !(hex2 pp && hex2 dd && hex2 ss) then false
      else
        match jsParseInt ⟨y⟩ with
        | none => false
        | some yearNum =>
          if yearNum < 1900 || yearNum > 2100 then false
          else if !(match p with | [ch] => isLetterChar ch | _ => false) then false
          else x.length = 5 && x.all isDigitChar
    | _ => false

/-- Specification-side reading of the claim: the string consists of
three two-hex-digit groups, a four-digit year between 1900 and 2100
inclusive, one letter, and a five-digit sequence, joined by hyphens. -/
def NeotreeIdSpec (s : String) : Prop :=
  ∃ a b c y p x : List Char,
    s.data =
      a ++ '-' :: (b ++ '-' :: (c ++ '-' :: (y ++ '-' :: (p ++ '-' :: x)))) ∧
    hex2 a = true ∧ hex2 b = true ∧ hex2 c = true ∧
    y.length = 4 ∧ y.all isDigitChar = true ∧
    1900 ≤ digitsToNat y ∧ digitsToNat y ≤ 2100 ∧
    (∃ ch, p = [ch] ∧ isLetterChar ch = true) ∧
    x.length = 5 ∧ x.all isDigitChar = true

/-- Worker for `collapseWs`; the flag records whether the previous
character belonged to a whitespace run already emitted as `' '`. -/
def collapseWsAux : Bool → List Char → List Char
  | _, [] => []
  | prevWs, c :: cs =>
    if isWsChar c then
      if prevWs then collapseWsAux true cs
      else ' ' :: collapseWsAux true cs
    else c :: collapseWsAux false cs

/-- Collapse runs of whitespace to a single space
(`replace(/\s+/g, " ")`). -/
def collapseWs (l : List Char) : List Char := collapseWsAux false l

/-- Is a character a control character (`[\x00-\x1F\x7F]`). -/
def isCtrlChar (c : Char) : Bool := c.toNat < 32 || c.toNat = 127

/-- String sanitization shared by both validators (`sanitizeString`):
trim, remove control characters, collapse whitespace runs. -/
def sanitizeString (s : String) : String :=
  ⟨collapseWs ((trimList s.data).filter (fun c => !isCtrlChar c))⟩

/-- Lexicographic comparison of `YYYY-MM-DD` strings, modeling the
JavaScript comparison `new Date(a) > new Date(b)` for well-formed ISO
dates (the only place the patient validator compares dates). -/
def isoDateLt (a b : String) : Bool := decide (a < b)

/-- Calendar validity of a `YYYY-MM-DD` string
(`PatientValidator.isValidDate`): shape check, then the round-trip
component comparison, which accepts exactly the dates whose month is
1..12 and whose day exists in that month (leap years included). -/
def isValidDate (s : String) : Bool :=
  match splitSep s.data with
  | [y, m, d] =>
    (y.length = 4 && y.all isDigitChar) &&
    (m.length = 2 && m.all isDigitChar) &&
    (d.length = 2 && d.all isDigitChar) &&
    (let yn := digitsToNat y
     let mn := digitsToNat m
     let dn := digitsToNat d
     let leap := (yn % 4 = 0 && yn % 100 ≠ 0) || yn % 400 = 0
     let maxDay : Nat :=
       if mn = 2 then (if leap then 29 else 28)
       else if mn = 4 || mn = 6 || mn = 9 || mn = 11 then 30
       else 31
     1 ≤ mn && mn ≤ 12 && 1 ≤ dn && dn ≤ maxDay)
  | _ => false

/-- The patient validator `PatientValidator.validate`
(`src/validation/patient-validator.ts`), reduced to its error list; the
`warnings` array never influences validity and is not tracked.  `today`
is the `YYYY-MM-DD` rendering of `new Date()` used by the
future-birth-date check. -/
def PatientValidator.validateErrors (today : String) (p : PatientResource) :
    List String :=
  (if p.resourceType ≠ "Patient" then ["Resource type must be Patient"] else [])
  ++ (match p.identifier with
      | none => ["Patient must have at least one identifier"]
      | some ids =>
        ids.foldr (fun ident acc =>
          (if ident.system.isEmpty then ["Identifier system is required"] else [])
          ++ (if (jsTrim ident.value).isEmpty then ["Identifier value is required"] else [])
          ++ acc) [])
  ++ (match p.birthDate with
      | none => []
      | some bd =>
        if !isValidDate bd then ["Invalid birthDate format"]
        else if isoDateLt today bd then ["Birth date cannot be in the future"]
        else [])
  ++ (match p.managingOrganization with
      | none => []
      | some orgRef =>
        if !(strStarts orgRef "Organization/") then
          ["Invalid managingOrganization reference format"]
        else [])
  ++ (match (p.identifier.getD []).find? (fun i => i.system = "urn:neotree:impilo-id") with
      | none => []
      | some neotreeId =>
        if neotreeId.value.isEmpty then []
        else if !isValidNeotreeId (jsTrim neotreeId.value) then
          ["Invalid NEOTREE-IMPILO-ID format"]
        else [])

/-- Validity verdict of the patient validator. -/
def PatientValidator.valid (today : String) (p : PatientResource) : Bool :=
  (PatientValidator.validateErrors today p).isEmpty

/-- The patient sanitizer `PatientValidator.sanitize`: trims identifier
systems and values, sanitizes name strings; other fields pass through. -/
def PatientValidator.sanitize (p : PatientResource) : PatientResource :=
  { p with
    identifier := p.identifier.map (fun ids =>
      ids.map (fun i =>
        { system := if i.system.isEmpty then i.system else jsTrim i.system
          value := if i.value.isEmpty then i.value else jsTrim i.value }))
    name := p.name.map (fun n =>
      { n with
        family := n.family.map (fun f => if f.isEmpty then f else sanitizeString f)
        given := n.given.map sanitizeString }) }

/-- JavaScript values that can appear in the parsed `data` JSON of an
observation row (primitive positions; arrays/objects do not occur in the
value positions the mapper reads, beyond the `values` array itself). -/
inductive JsVal where
  | str (s : String)
  | num (n : Int)
  | bool (b : Bool)
  | null
deriving DecidableEq, Repr

/-- JavaScript truthiness of an optional value (`none` models a missing
key, i.e. `undefined`). -/
def jsTruthy : Option JsVal → Bool
  | none => false
  | some .null => false
  | some (.str s) => !s.isEmpty
  | some (.num n) => n ≠ 0
  | some (.bool b) => b

/-- JavaScript `String(v)` on the modeled values. -/
def jsString : Option JsVal → String
  | none => "undefined"
  | some .null => "null"
  | some (.str s) => s
  | some (.num n) => toString n
  | some (.bool b) => if b then "true" else "false"

/-- JavaScript `parseFloat(s)` restricted to the integral part: leading
whitespace, optional sign, digit run; `none` models `NaN`.  Fractional
digits are not modeled (no claim depends on them). -/
def jsParseFloat (s : String) : Option Int := jsParseInt s

/-- One entry of the `values` array inside a row's `data` JSON. -/
structure ValueEntry where
  value : Option JsVal
  valueText : Option JsVal
  label : Option JsVal
deriving DecidableEq, Repr

/-- Source row of the observation stream (`NeonatalQuestionRow`,
`src/db/mysql.ts`), restricted to the fields the mapper and the queue
read.  `data` is the raw JSON string; `dataValues` is the result of
`JSON.parse(row.data)` projected to its `values` array: `none` when the
payload is unparsable (the mapper's `catch` replaces it by `{}`), and
a parse result without a `values` array is `some []`. -/
structure QRow where
  id : String
  category : Option String
  category_id : Option Int
  type : String
  data_key : String
  neonatal_care_id : String
  patient_id : String
  data : String
  dataValues : Option (List ValueEntry)
  display_key : Option String
  display_value : Option String
  date : Option String
  date_time_admission : Option String
  person_id : Option String
  impilo_neotree_id : Option String
deriving DecidableEq, Repr

/-- The value part extracted by the mapper: exactly one of the FHIR
`value[x]` fields, or a `component` list for multi-value answers. -/
inductive ObsValue where
  | vInt (n : Int)
  | vStr (s : String)
  | vBool (b : Bool)
  | vDateTime (s : String)
  | vComponent (comps : List (Option JsVal × Option JsVal × String))
deriving DecidableEq, Repr

/-- Embedded FHIR observation resource (the fields the claims mention). -/
structure ObservationResource where
  resourceType : String
  id : String
  status : String
  categoryCode : Option String
  codeSystem : String
  code : String
  codeDisplay : String
  subject : String
  effectiveDateTime : Option String
  value : Option ObsValue
  rawDataExtension : String
  encounterRef : String
  metaClientId : String
deriving DecidableEq, Repr

/-- The mapper's `formatDateTime` applied to a JSON value, as the
`datetime`/`date` branch of `extractValue` does
(`this.formatDateTime(value)`).  A falsy input returns `undefined`; a
string is parsed through the date oracle; a truthy non-string (a
non-zero number or `true`) reaches `d.getTime()` on a non-`Date` value
and throws a `TypeError`, embedded as `Except.error`. -/
def formatDateTimeVal (env : DateEnv) (v : Option JsVal) :
    Except String (Option String) :=
  match v with
  | none => .ok none
  | some .null => .ok none
  | some (.str s) => if s.isEmpty then .ok none else .ok (env.toIsoDateTime s)
  | some (.num n) => if n = 0 then .ok none else .error "TypeError: getTime is not a function"
  | some (.bool b) => if b then .error "TypeError: getTime is not a function" else .ok none

/-- The mapper's `formatDateTime` applied to the row's admission
timestamp (`string | null` at runtime): never throws. -/
def formatDateTimeStr (env : DateEnv) (s : Option String) : Option String :=
  match s with
  | none => none
  | some s => if s.isEmpty then none else env.toIsoDateTime s

/-- Value extraction `ObservationMapper.extractValue`
(`src/mapping/observation.ts`): no first value falls back to
`display_value` (or no value at all); otherwise the row `type` selects
the number / boolean / datetime / string-or-component branch. -/
def extractValue (env : DateEnv) (values : List ValueEntry) (type : String)
    (displayValue : Option String) : Except String (Option ObsValue) :=
  match values.head? with
  | none =>
    if strTruthy displayValue then .ok (some (.vStr (displayValue.getD "")))
    else .ok none
  | some firstValue =>
    let value := firstValue.value
    let valueText := if jsTruthy firstValue.valueText then firstValue.valueText else value
    let t := jsLower type
    if t = "number" then
      let numValue : Option Int :=
        match value with
        | some (.num n) => some n
        | v => jsParseFloat (jsString v)
      match numValue with
      | some n => .ok (some (.vInt n))
      | none => .ok (some (.vStr (jsString valueText)))
    else if t = "boolean" then
      let boolValue :=
        match value with
        | some (.bool b) => b
        | v => jsLower (jsString v) = "true"
      .ok (some (.vBool boolValue))
    else if t = "datetime" || t = "date" then
      match formatDateTimeVal env value with
      | .error e => .error e
      | .ok (some s) => .ok (some (.vDateTime s))
      | .ok none => .ok none
    else
      if values.length > 1 then
        .ok (some (.vComponent (values.map (fun v =>
          (v.value,
           if jsTruthy v.valueText then v.valueText else v.label,
           jsString (if jsTruthy v.valueText then v.valueText else v.value))))))
      else .ok (some (.vStr (jsString (if jsTruthy valueText then valueText else value))))

/-- The observation mapper `ObservationMapper.map` of
`src/mapping/observation.ts`: builds the resource with the deterministic
id `neonatal-question-<row id>` and the subject reference
`Patient/${patientResourceId || row.patient_id}` — when no resolved
registry id is supplied (or it is empty, hence falsy) the source
database `patient_id` is substituted. -/
def ObservationMapper.map (env : DateEnv) (clientId : String) (row : QRow)
    (patientResourceId : Option String) : Except String ObservationResource :=
  let values := row.dataValues.getD []
  match extractValue env values row.type row.display_value with
  | .error e => .error e
  | .ok value =>
    .ok
      { resourceType := "Observation"
        id := "neonatal-question-" ++ row.id
        status := "final"
        categoryCode := row.category_id.map toString
        codeSystem := "urn:neotree:data-key"
        code := row.data_key
        codeDisplay := if strTruthy row.display_key then row.display_key.getD "" else row.data_key
        subject :=
          "Patient/" ++ (if strTruthy patientResourceId then patientResourceId.getD ""
                         else row.patient_id)
        effectiveDateTime := formatDateTimeStr env row.date_time_admission
        value := value
        rawDataExtension := row.data
        encounterRef := "Encounter/" ++ row.neonatal_care_id
        metaClientId := clientId }

/-- The observation validator `ObservationValidator.validate`
(`src/validation/observation-validator.ts`), reduced to its error list
(warnings never influence validity). -/
def ObservationValidator.validateErrors (env : DateEnv) (o : ObservationResource) :
    List String :=
  (if o.resourceType ≠ "Observation" then ["Resource type must be Observation"] else [])
  ++ (if o.status.isEmpty then ["Observation status is required"] else [])
  ++ (if o.code.isEmpty then ["Code coding 1: code is required"] else [])
  ++ (if o.subject.isEmpty then ["Observation subject reference is required"]
      else if !(strStarts o.subject "Patient/") then
        ["Subject reference must have the Patient form"]
      else [])
  ++ (match o.value with
      | none => ["Observation must have at least one value"]
      | some (.vComponent []) => ["Observation must have at least one value"]
      | some _ => [])
  ++ (match o.effectiveDateTime with
      | none => []
      | some e =>
        if e.isEmpty then []
        else match env.toIsoDateTime e with
          | none => ["Invalid effectiveDateTime format"]
          | some _ => [])

/-- Validity verdict of the observation validator. -/
def ObservationValidator.valid (env : DateEnv) (o : ObservationResource) : Bool :=
  (ObservationValidator.validateErrors env o).isEmpty

/-- The observation sanitizer `ObservationValidator.sanitize`: trims the
coding strings and sanitizes string values. -/
def ObservationValidator.sanitize (o : ObservationResource) : ObservationResource :=
  { o with
    codeSystem := if o.codeSystem.isEmpty then o.codeSystem else jsTrim o.codeSystem
    code := if o.code.isEmpty then o.code else jsTrim o.code
    codeDisplay := if o.codeDisplay.isEmpty then o.codeDisplay else jsTrim o.codeDisplay
    value :=
      match o.value with
      | some (.vStr s) => some (.vStr (if s.isEmpty then s else sanitizeString s))
      | some (.vComponent comps) =>
        some (.vComponent (comps.map (fun c =>
          (c.1, c.2.1, if c.2.2.isEmpty then c.2.2 else sanitizeString c.2.2))))
      | v => v }

/-- Outcome of one HTTP round trip: a response with a status code, or a
transport-level failure (the request emitted an `error` event). -/
inductive HttpOutcome where
  | status (code : Nat)
  | transportError
deriving DecidableEq, Repr

/-- Execution trace of a retry loop: the final result (`ok status` for a
resolved promise, `err` for a propagated throw), the number of HTTP
requests actually issued, and the list of back-off delays slept, in
milliseconds and in order. -/
structure NetTrace where
  result : Except Unit Nat
  requests : Nat
  delays : List Nat
deriving Repr

/-- Worker of `OpenHimClient.postJson` / `putResource`
(`openhim/client.ts`), the `while (true)` loop desugared over the list
of attempt indices it can reach (the `attempt` counter at the moment of
each request; the loop provably leaves the list non-empty).  `resp n` is
the outcome of the `n`-th HTTP request (0-based).  A 2xx response
resolves; any other response is rejected (and re-requested) while
`attempt < retries`, and resolved with its status once attempts are
exhausted; a transport error propagates out (`throw`) once
`attempt + 1 > retries`.  Each retry sleeps the current delay and
doubles it. -/
def postJsonLoop (resp : Nat → HttpOutcome) (retries : Nat) :
    List Nat → Nat → NetTrace
  | [], _ => ⟨.error (), 0, []⟩
  | attempt :: rest, delayMs =>
    match resp attempt with
    | .status s =>
      if 200 ≤ s ∧ s < 300 then ⟨.ok s, 1, []⟩
      else if attempt < retries then
        let r := postJsonLoop resp retries rest (delayMs * 2)
        ⟨r.result, r.requests + 1, delayMs :: r.delays⟩
      else ⟨.ok s, 1, []⟩
    | .transportError =>
      if attempt + 1 > retries then ⟨.error (), 1, []⟩
      else
        let r := postJsonLoop resp retries rest (delayMs * 2)
        ⟨r.result, r.requests + 1, delayMs :: r.delays⟩

/-- `OpenHimClient.postJson` (and `putResource`, whose loop is
identical): the attempt counter runs from 0 to at most `retries`,
starting from a 250 ms delay that doubles each time.  The default retry
budget is 3. -/
def postJson (resp : Nat → HttpOutcome) (retries : Nat := 3) : NetTrace :=
  postJsonLoop resp retries (List.range (retries + 1)) 250

/-- Result of pushing one observation through
`pushObservationsWithRetry`: whether it was eventually pushed, how many
pipeline-level attempts ran, which delays were slept, and whether the
unit was written to the dead-letter sink. -/
structure PushOneResult where
  pushed : Bool
  attempts : Nat
  delays : List Nat
  dlq : Bool
deriving DecidableEq, Repr

/-- The per-observation attempt loop inside `pushObservationsWithRetry`
(`startNeonatalQuestionPipeline`), the
`for (attempt = 1; attempt <= maxRetries; ...)` loop desugared over the
list of attempt indices.  `presp n` is the settled outcome of the
`n`-th `putResource` call (1-based), `some s` a resolved status, `none`
a thrown error.  2xx succeeds; a 5xx is retried after `1000 * attempt`
ms while attempts remain; any other status breaks out at once; a throw
is retried while attempts remain. -/
def pushOneLoop (presp : Nat → Option Nat) (maxRetries : Nat) :
    List Nat → Bool × Nat × List Nat
  | [] => (false, 0, [])
  | attempt :: rest =>
    match presp attempt with
    | some s =>
      if 200 ≤ s ∧ s < 300 then (true, 1, [])
      else if 500 ≤ s ∧ attempt < maxRetries then
        let r := pushOneLoop presp maxRetries rest
        (r.1, r.2.1 + 1, (1000 * attempt) :: r.2.2)
      else (false, 1, [])
    | none =>
      if attempt < maxRetries then
        let r := pushOneLoop presp maxRetries rest
        (r.1, r.2.1 + 1, (1000 * attempt) :: r.2.2)
      else (false, 1, [])

/-- Pushing one observation with the pipeline retry policy (the loop
body of `pushObservationsWithRetry`, default budget 3, attempts
1..`maxRetries`); the unit is dead-lettered exactly when it was not
pushed. -/
def pushOne (presp : Nat → Option Nat) (maxRetries : Nat := 3) : PushOneResult :=
  let r := pushOneLoop presp maxRetries (List.range' 1 maxRetries)
  ⟨r.1, r.2.1, r.2.2, !r.1⟩

/-- `pushObservationsWithRetry` over a list of observation ids:
`oracle i` is the `putResource` outcome function for the `i`-th
observation.  Observations are pushed sequentially; the function
returns `(success, failed)` counts only — per-unit outcomes are not
reported back to the caller. -/
def pushObservationsWithRetry (oracle : Nat → Nat → Option Nat)
    (obsIds : List String) : Nat × Nat :=
  (List.range obsIds.length).foldl
    (fun acc i =>
      let r := pushOne (oracle i)
      if r.pushed then (acc.1 + 1, acc.2) else (acc.1, acc.2 + 1))
    (0, 0)

/-- The attempt loop of `pushPatientWithRetry`
(`startOpencrPushPipeline`), desugared over the attempt index list:
each attempt awaits `postResource` and returns its result whatever the
status is — only a thrown (transport-level) error is retried, after
`1000 * attempt` ms; exhaustion rethrows (`.error`). -/
def pushPatientLoop (presp : Nat → Option Nat) (maxRetries : Nat) :
    List Nat → NetTrace
  | [] => ⟨.error (), 0, []⟩
  | attempt :: rest =>
    match presp attempt with
    | some s => ⟨.ok s, 1, []⟩
    | none =>
      if attempt < maxRetries then
        let r := pushPatientLoop presp maxRetries rest
        ⟨r.result, r.requests + 1, (1000 * attempt) :: r.delays⟩
      else ⟨.error (), 1, []⟩

/-- `pushPatientWithRetry` with its default budget of 3 attempts
(attempts 1..`maxRetries`).  `presp n` is the settled outcome of the
`n`-th `postResource` call (1-based). -/
def pushPatientWithRetry (presp : Nat → Option Nat) (maxRetries : Nat := 3) :
    NetTrace :=
  pushPatientLoop presp maxRetries (List.range' 1 maxRetries)

/-- Strip the id tag the replay loop removes before dequeuing
(`obs.id.replace("neonatal-question-", "")`). -/
def stripQuestionTag (s : String) : String :=
  if strStarts s "neonatal-question-" then
    ⟨s.data.drop "neonatal-question-".length⟩
  else s

/-- Result of one run of `processQueuedObservations` for a patient whose
registry id resolved. -/
structure ReplayResult where
  markedFailed : List String
  dequeued : List String
  success : Nat
  failed : Nat
deriving DecidableEq, Repr

/-- The replay step `processQueuedObservations`
(`startNeonatalQuestionPipeline`) for a patient whose registry id
resolved to `patientResourceId`: every queued row is mapped, sanitized
and validated — mapping errors and invalid resources are marked failed
in the queue — the remaining resources are pushed through
`pushObservationsWithRetry`, and then EVERY mapped-and-valid resource is
dequeued (hard deleted), with only the aggregate `(success, failed)`
counts of the push available. -/
def processQueuedObservations (env : DateEnv) (clientId : String)
    (queued : List QRow) (patientResourceId : String)
    (oracle : Nat → Nat → Option Nat) : ReplayResult :=
  let step : List (Sum String ObservationResource) := queued.map (fun row =>
    match ObservationMapper.map env clientId row (some patientResourceId) with
    | .error _ => .inl row.id
    | .ok obs =>
      let sanitized := ObservationValidator.sanitize obs
      if ObservationValidator.valid env sanitized then .inr sanitized
      else .inl row.id)
  let markedFailed := step.filterMap (fun x => match x with | .inl i => some i | .inr _ => none)
  let fhirObservations := step.filterMap (fun x => match x with | .inl _ => none | .inr o => some o)
  let counts := pushObservationsWithRetry oracle (fhirObservations.map (·.id))
  { markedFailed := markedFailed
    dequeued := fhirObservations.map (fun o => stripQuestionTag o.id)
    success := counts.1
    failed := counts.2 }

/-- The patient-stream poll tick `pollAndProcess` of
`startOpencrPushPipeline`, reduced to its watermark-commit decision.
An empty batch returns before the commit; a batch in which no row
survived validation returns before the commit
(`"All patients failed validation, skipping batch"`); otherwise the
watermark is set to the last row's `date_time_admission` — the push
outcomes (`pushOutcomes`, one oracle per validated entry) are only
counted and logged and never reach the commit, which is why they are an
unused argument here, exactly as in the source. -/
def patientTickCommit (env : DateEnv) (clientId : String) (today : String)
    (rows : List CareRow) (pushOutcomes : Nat → Nat → Option Nat) : Option String :=
  match rows.getLast? with
  | none => none
  | some lastRow =>
    let validated := rows.filter (fun row =>
      PatientValidator.valid today
        (PatientValidator.sanitize (PatientMapper.map env (some clientId) row)))
    if validated.isEmpty then none
    else some lastRow.date_time_admission

/-- Grouping of a batch by `patient_id` (`groupByPatient`), preserving
both the first-occurrence order of patients and the row order inside a
group, as a JavaScript `Map` does. -/
def upsertGroup (acc : List (String × List QRow)) (row : QRow) :
    List (String × List QRow) :=
  match acc with
  | [] => [(row.patient_id, [row])]
  | (k, v) :: rest =>
    if k = row.patient_id then (k, v ++ [row]) :: rest
    else (k, v) :: upsertGroup rest row

/-- Group a batch of observation rows by `patient_id`. -/
def groupByPatient (rows : List QRow) : List (String × List QRow) :=
  rows.foldl upsertGroup []

/-- The search identifier the observation pipeline hands to the identity
resolver for a group: `firstObs?.impilo_neotree_id || firstObs?.person_id
|| patientId`. -/
def groupSearchIdentifier (patientId : String) (observations : List QRow) : String :=
  match observations.head? with
  | none => patientId
  | some firstObs =>
    if strTruthy firstObs.impilo_neotree_id then firstObs.impilo_neotree_id.getD ""
    else if strTruthy firstObs.person_id then firstObs.person_id.getD ""
    else patientId

/-- Per-group outcome counters of the observation poll tick:
`(success, failed, queued)`. -/
def observationGroupCounts (env : DateEnv) (clientId : String)
    (verify : String → Option String) (oracle : Nat → Nat → Option Nat)
    (patientId : String) (observations : List QRow) : Nat × Nat × Nat :=
  match verify (groupSearchIdentifier patientId observations) with
  | none => (0, 0, observations.length)
  | some patientResourceId =>
    let mapped : List (Sum Unit ObservationResource) := observations.map (fun row =>
      match ObservationMapper.map env clientId row (some patientResourceId) with
      | .error _ => .inl ()
      | .ok obs =>
        let sanitized := ObservationValidator.sanitize obs
        if ObservationValidator.valid env sanitized then .inr sanitized
        else .inl ())
    let invalidCount := mapped.countP (fun x => match x with | .inl _ => true | .inr _ => false)
    let fhirIds := mapped.filterMap (fun x => match x with | .inl _ => none | .inr o => some o.id)
    let counts := pushObservationsWithRetry oracle fhirIds
    (counts.1, counts.2 + invalidCount, 0)

/-- Worker accumulating the group counters of a tick; `i` indexes the
groups so each group reads its own slice of the push oracle. -/
def observationTickGo (env : DateEnv) (clientId : String)
    (verify : String → Option String) (oracle : Nat → Nat → Nat → Option Nat) :
    List (String × List QRow) → Nat → Nat × Nat × Nat
  | [], _ => (0, 0, 0)
  | (patientId, observations) :: rest, i =>
    let r := observationGroupCounts env clientId verify (oracle i) patientId observations
    let k := observationTickGo env clientId verify oracle rest (i + 1)
    (r.1 + k.1, r.2.1 + k.2.1, r.2.2 + k.2.2)

/-- The watermark value the observation tick would commit for its last
row: the row's UTC-converted `date` when present and non-empty, else
the id fallback. -/
def observationCommitValue (lastRow : QRow) : String :=
  match lastRow.date with
  | some d => if d.isEmpty then lastRow.id else d
  | none => lastRow.id

/-- Outcome of one observation-stream poll tick. -/
structure ObsTick where
  totalSuccess : Nat
  totalFailed : Nat
  totalQueued : Nat
  commit : Option String
deriving DecidableEq, Repr

/-- The observation-stream poll tick `pollAndProcess` of
`startNeonatalQuestionPipeline` (current revision, with the
`totalFailed` gate), reduced to its counters and watermark-commit
decision.  Rows are grouped by patient; a group whose parent does not
resolve is enqueued and counts as `queued`, not as failed; mapping or
validation failures and push failures count as failed; the watermark is
committed to the last row's date (id fallback) exactly when the batch is
non-empty and `totalFailed === 0`.  (The embedded queue replay
`processQueuedObservations` touches only the queue table and is
irrelevant to the commit, so the tick does not re-run it here.) -/
def observationTick (env : DateEnv) (clientId : String)
    (verify : String → Option String) (oracle : Nat → Nat → Nat → Option Nat)
    (rows : List QRow) : ObsTick :=
  match rows.getLast? with
  | none => ⟨0, 0, 0, none⟩
  | some lastRow =>
    let c := observationTickGo env clientId verify oracle (groupByPatient rows) 0
    { totalSuccess := c.1
      totalFailed := c.2.1
      totalQueued := c.2.2
      commit := if c.2.1 = 0 then some (observationCommitValue lastRow) else none }

/-- Timezone shift of `CONVERT_TZ(x, '+00:00', '+02:00')` applied to the
watermark before comparison (the store keeps Zimbabwe CAT wall-clock
values; watermarks are kept in UTC), in seconds. -/
def tzOff : Int := 7200

/-- Stored observation row as seen by the poll query: the CAT `date`
value as a comparable integer (`none` for SQL `NULL`) and the primary
key under the id column's total order, modeled by `Nat`. -/
structure DbQRow where
  date : Option Int
  id : Nat
deriving DecidableEq, Repr

/-- Stored neonatal-care row as seen by the poll query
(`date_time_admission` is not nullable). -/
structure DbCareRow where
  date : Int
  id : Nat
deriving DecidableEq, Repr

/-- The `ORDER BY CONVERT_TZ(nq.date, ...), nq.id` comparison of the
observation poll query: lexicographic on (UTC-converted date, id), with
`NULL` dates first as MySQL sorts ascending. -/
def qRowLe (a b : DbQRow) : Bool :=
  match a.date, b.date with
  | none, none => a.id ≤ b.id
  | none, some _ => true
  | some _, none => false
  | some da, some db =>
    if da - tzOff ≠ db - tzOff then da - tzOff < db - tzOff else a.id ≤ b.id

/-- The `ORDER BY nc.date_time_admission, nc.neonatal_care_id`
comparison of the patient poll query. -/
def careRowLe (a b : DbCareRow) : Bool :=
  if a.date ≠ b.date then a.date < b.date else a.id ≤ b.id

/-- Insert into a list sorted by `r` (ties keep the existing element
first, which matches a stable sort). -/
def insertBy (r : α → α → Bool) (a : α) : List α → List α
  | [] => [a]
  | b :: bs => if r b a then b :: insertBy r a bs else a :: b :: bs

/-- Sort by the boolean relation `r` (insertion sort; any sort satisfies
the `ORDER BY` contract, which only fixes the key order). -/
def sortBy (r : α → α → Bool) (l : List α) : List α := l.foldr (insertBy r) []

/-- The observation poll query `fetchNeonatalQuestions`
(`src/db/mysql.ts`): keep rows whose CAT `date` is strictly above the
UTC watermark shifted into CAT (rows with `NULL` date never satisfy the
comparison), order by (UTC-converted date, id) and apply `LIMIT`. -/
def fetchNeonatalQuestionsQ (table : List DbQRow) (watermark : Option Int)
    (batchSize : Nat) : List DbQRow :=
  let filtered :=
    match watermark with
    | none => table
    | some w => table.filter (fun r =>
        match r.date with
        | some d => decide (w + tzOff < d)
        | none => false)
  (sortBy qRowLe filtered).take batchSize

/-- The patient poll query `fetchNeonatalCareWithDemographics`
(`src/db/mysql.ts`): same watermark bound on `date_time_admission`,
ordered by (admission timestamp, neonatal-care id) with `LIMIT`. -/
def fetchNeonatalCareQ (table : List DbCareRow) (watermark : Option Int)
    (batchSize : Nat) : List DbCareRow :=
  let filtered :=
    match watermark with
    | none => table
    | some w => table.filter (fun r => decide (w + tzOff < r.date))
  (sortBy careRowLe filtered).take batchSize

/-- Identifier block of a simplified MPI search result
(`SimplifiedPatient.identifiers`, `src/api/types.ts`). -/
structure SimplifiedIds where
  phid : Option String
  neotreeId : Option String
  patientId : Option String
  personId : Option String
deriving DecidableEq, Repr

/-- Simplified MPI search result (`transformToSimplified`,
`src/opencr/search-client.ts`), restricted to the fields the duplicate
selection reads. -/
structure SimplifiedPatient where
  id : String
  identifiers : SimplifiedIds
deriving DecidableEq, Repr

/-- `Object.values(p.identifiers).filter(Boolean).length`: the number of
populated (truthy) identifier fields of a candidate. -/
def countIdentifiers (p : SimplifiedPatient) : Nat :=
  [p.identifiers.phid, p.identifiers.neotreeId,
   p.identifiers.patientId, p.identifiers.personId].countP strTruthy

/-- The duplicate-candidate selection of
`PatientVerificationService.verifyPatientExists`
(`src/push/patient-verification.ts`): the first candidate when the MPI
returned a single one; with several candidates, the first one carrying a
(truthy) `phid` if any does, otherwise the `reduce` keeping the
candidate with the strictly greatest populated-identifier count (the
earliest wins ties). -/
def selectBestCandidate : List SimplifiedPatient → Option SimplifiedPatient
  | [] => none
  | p :: rest =>
    if rest.isEmpty then some p
    else
      match (p :: rest).find? (fun q => strTruthy q.identifiers.phid) with
      | some q => some q
      | none =>
        some (rest.foldl (fun best cur =>
          if countIdentifiers cur > countIdentifiers best then cur else best) p)

/-- Does a JSON value make `formatDateTime` throw when passed as the
`datetime` branch argument: truthy non-strings reach `d.getTime()` on a
non-`Date` value. -/
def badDateArg : Option JsVal → Bool
  | some (.num n) => n ≠ 0
  | some (.bool b) => b
  | _ => false

/-- Subject reference of a mapping result, `none` when mapping threw. -/
def subjectOf : Except String ObservationResource → Option String
  | .ok o => some o.subject
  | .error _ => none

/-- Degenerate date oracle (every date invalid); the claims evaluated at
concrete inputs never exercise the date paths. -/
def dateEnv0 : DateEnv := ⟨fun _ => none, fun _ => none⟩

/-- Concrete observation row with no resolvable registry patient id
context: the mapper substitutes its `patient_id` (C1). -/
def rowP123 : QRow :=
  { id := "7", category := none, category_id := none, type := "string"
    data_key := "HR", neonatal_care_id := "NC1", patient_id := "P123"
    data := "not json", dataValues := none, display_key := none
    display_value := some "5", date := some "2026-01-02 03:04:05"
    date_time_admission := none, person_id := none, impilo_neotree_id := none }

/-- Concrete queued observation row that maps to a valid resource
(number type, display-value fallback) used for the replay scenarios. -/
def rowQ42 : QRow :=
  { id := "42", category := none, category_id := none, type := "number"
    data_key := "HR", neonatal_care_id := "NC1", patient_id := "P1"
    data := "not json", dataValues := none, display_key := none
    display_value := some "5", date := some "2026-01-02 03:04:05"
    date_time_admission := none, person_id := none, impilo_neotree_id := none }

/-- Concrete observation row of type `datetime` whose first JSON value
is the number `5`: `formatDateTime` receives a non-`Date`, non-string
value and throws (C10). -/
def rowDt5 : QRow :=
  { id := "9", category := none, category_id := none, type := "datetime"
    data_key := "TS", neonatal_care_id := "NC1", patient_id := "P2"
    data := "x", dataValues := some [⟨some (.num 5), none, none⟩]
    display_key := none, display_value := none, date := none
    date_time_admission := none, person_id := none, impilo_neotree_id := none }

/-- Concrete patient row whose mapped resource fails validation (its
program-specific identifier `"BAD"` has the wrong format), giving an
all-invalid batch (C3). -/
def rowBadId : CareRow :=
  { neonatal_care_id := "N1", patient_id := "P7", phid := none
    impilo_neotree_id := some "BAD"
    date_time_admission := "2026-01-02 03:04:05", facility_id := none
    person_id := "per-7", firstname := none, lastname := none
    birthdate := none, sex := none }

/-- Concrete patient row with both a primary health id and a
program-specific id (C5). -/
def rowBothIds : CareRow :=
  { neonatal_care_id := "N2", patient_id := "P8"
    phid := some "203A2814"
    impilo_neotree_id := some "00-0A-34-2025-N-01031"
    date_time_admission := "2026-01-02 03:04:05", facility_id := none
    person_id := "per-8", firstname := none, lastname := none
    birthdate := none, sex := none }

/-- Push oracle whose every call settles with HTTP 404. -/
def oracle404 : Nat → Nat → Option Nat := fun _ _ => some 404

/-- Geometric delay run: `n` delays starting at `d`, doubling. -/
def geomRun (d : Nat) : Nat → List Nat
  | 0 => []
  | n + 1 => d :: geomRun (d * 2) n

/-- Concrete duplicate-candidate list: the second candidate carries a
primary health id. -/
def demoCandidates : List SimplifiedPatient :=
  [⟨"a", ⟨none, some "N1", some "PT1", none⟩⟩,
   ⟨"b", ⟨some "PH", none, none, none⟩⟩]

/-- Concrete observation source table: two rows share a timestamp, one
row has a `NULL` date, one row sits below the watermark used in the
scenario. -/
def demoQTable : List DbQRow :=
  [⟨some 10000, 2⟩, ⟨some 10000, 1⟩, ⟨none, 5⟩, ⟨some 9000, 3⟩]

/-- Helper: the `reduce`-style fold keeping the element with the
strictly greatest measure returns the seed or a list element, is at
least the seed's measure, and dominates every list element. -/
theorem foldlBest_mem_le {α : Type} (f : α → Nat) :
    ∀ (l : List α) (a : α),
      ((l.foldl (fun best cur => if f cur > f best then cur else best) a) = a ∨
        (l.foldl (fun best cur => if f cur > f best then cur else best) a) ∈ l) ∧
      f a ≤ f (l.foldl (fun best cur => if f cur > f best then cur else best) a) ∧
      (∀ x ∈ l, f x ≤ f (l.foldl (fun best cur => if f cur > f best then cur else best) a)) := by
  intro l
  induction l with
  | nil => exact fun a => ⟨Or.inl rfl, le_refl _, by simp⟩
  | cons b bs ih =>
    intro a
    rcases ih (if f b > f a then b else a) with ⟨hmem, hle, hall⟩
    have hstep : f a ≤ f (if f b > f a then b else a) := by split <;> omega
    have hstepb : f b ≤ f (if f b > f a then b else a) := by split <;> omega
    refine ⟨?_, ?_, ?_⟩
    · rcases hmem with h | h
      · rw [List.foldl_cons, h]
        split
        · exact Or.inr (List.mem_cons_self _ _)
        · exact Or.inl rfl
      · exact Or.inr (List.mem_cons_of_mem _ (by rwa [List.foldl_cons]))
    · rw [List.foldl_cons]; exact le_trans hstep hle
    · intro x hx
      rcases List.mem_cons.mp hx with rfl | hx
      · rw [List.foldl_cons]; exact le_trans hstepb hle
      · rw [List.foldl_cons]; exact hall x hx

/-- C1: the spec demands that constructing an observation resource
without a resolved registry patient id fail deterministically and never
substitute the source-database id; the mapper instead succeeds and puts
the row's `patient_id` into the subject reference (the
`patientResourceId || row.patient_id` fallback at
`src/mapping/observation.ts:39`), so a concrete row with `patient_id`
`"P123"` and no resolved id yields `Patient/P123`. -/
theorem C1_subject_substitution :
    subjectOf (ObservationMapper.map dateEnv0 "client" rowP123 none) =
      some ("Patient/" ++ rowP123.patient_id) ∧
    subjectOf (ObservationMapper.map dateEnv0 "client" rowP123 none) =
      some "Patient/P123" := by
  exact ⟨by decide, by decide⟩

/-- C2: replaying one queued observation whose transmission settles with
HTTP 404 on every attempt: the push reports one failure and zero
successes, yet the replay loop still dequeues (hard deletes) the entry
`"42"`, because the dequeue loop runs over every mapped-and-valid
observation and only aggregate counts come back from the push. -/
theorem C2_dequeue_despite_failure :
    processQueuedObservations dateEnv0 "client" [rowQ42] "R9" oracle404 =
      { markedFailed := [], dequeued := ["42"], success := 0, failed := 1 } := by
  decide

/-- C6 counterexample: the claim maps an absent sex value to
`"unknown"`, but `normalizeGender` returns `undefined` (the gender field
is omitted) for an absent value. -/
theorem C6_counterexample : normalizeGender none ≠ some Gender.unknown := by
  decide

/-- C6 (amended): case-insensitive (and trimmed) `m`/`male` map to
`male`, `f`/`female` to `female`, `other`/`o` pass through as `other`,
every other non-empty input maps to `unknown` — in particular `"M"`,
`"male"`, `"MALE"` yield `male` and `"X"` yields `unknown` — while an
absent or empty value yields no gender at all rather than `"unknown"`. -/
theorem C6_gender_normalization :
    (∀ s : String, s.isEmpty = false →
      ((jsTrim (jsLower s) = "m" ∨ jsTrim (jsLower s) = "male") →
        normalizeGender (some s) = some Gender.male) ∧
      ((jsTrim (jsLower s) = "f" ∨ jsTrim (jsLower s) = "female") →
        normalizeGender (some s) = some Gender.female) ∧
      ((jsTrim (jsLower s) = "other" ∨ jsTrim (jsLower s) = "o") →
        normalizeGender (some s) = some Gender.other) ∧
      (jsTrim (jsLower s) ≠ "m" → jsTrim (jsLower s) ≠ "male" →
       jsTrim (jsLower s) ≠ "f" → jsTrim (jsLower s) ≠ "female" →
       jsTrim (jsLower s) ≠ "other" → jsTrim (jsLower s) ≠ "o" →
        normalizeGender (some s) = some Gender.unknown)) ∧
    normalizeGender none = none ∧
    normalizeGender (some "") = none ∧
    normalizeGender (some "M") = some Gender.male ∧
    normalizeGender (some "male") = some Gender.male ∧
    normalizeGender (some "MALE") = some Gender.male ∧
    normalizeGender (some "X") = some Gender.unknown := by
  refine ⟨?_, by decide, by decide, by decide, by decide, by decide, by decide⟩
  intro s hs
  refine ⟨?_, ?_, ?_, ?_⟩
  · rintro (h | h) <;> simp [normalizeGender, hs, h]
  · rintro (h | h) <;> simp [normalizeGender, hs, h]
  · rintro (h | h) <;> simp [normalizeGender, hs, h]
  · intro h1 h2 h3 h4 h5 h6
    simp [normalizeGender, hs, h1, h2, h3, h4, h5, h6]

/-- C6 witness: the general clause of the normalization theorem applied
at the concrete input `"X"`. -/
theorem C6_gender_normalization_witness :
    normalizeGender (some "X") = some Gender.unknown :=
  (C6_gender_normalization.1 "X" (by decide)).2.2.2
    (by decide) (by decide) (by decide) (by decide) (by decide) (by decide)

/-- C5: a row whose `phid` and `impilo_neotree_id` are both populated
maps to a resource whose identifier list starts with the primary health
id, immediately followed by the program-specific id (the remaining
entries being the `person-id`/`uid` block). -/
theorem C5_identifier_priority (env : DateEnv) (clientId : Option String)
    (row : CareRow) (hph : truthyTrim row.phid = true)
    (hnt : truthyTrim row.impilo_neotree_id = true) :
    ∃ rest, (PatientMapper.map env clientId row).identifier =
      some (Identifier.mk "urn:impilo:phid" (jsTrim (row.phid.getD "")) ::
            Identifier.mk "urn:neotree:impilo-id" (jsTrim (row.impilo_neotree_id.getD "")) ::
            rest) := by
  refine ⟨(if !row.person_id.isEmpty then
      [⟨"urn:impilo:person-id", row.person_id⟩,
       ⟨"urn:impilo:uid", row.person_id⟩] else []), ?_⟩
  simp [PatientMapper.map, buildIdentifiers, hph, hnt]

/-- C5 witness: the identifier ordering at a concrete row carrying both
ids. -/
theorem C5_identifier_priority_witness :
    truthyTrim rowBothIds.phid = true ∧
    truthyTrim rowBothIds.impilo_neotree_id = true ∧
    ∃ rest, (PatientMapper.map dateEnv0 (some "client") rowBothIds).identifier =
      some (Identifier.mk "urn:impilo:phid" (jsTrim (rowBothIds.phid.getD "")) ::
            Identifier.mk "urn:neotree:impilo-id"
              (jsTrim (rowBothIds.impilo_neotree_id.getD "")) :: rest) :=
  ⟨by decide, by decide,
    C5_identifier_priority dateEnv0 (some "client") rowBothIds (by decide) (by decide)⟩

/-- C7: for any non-empty candidate list the selection returns a member
of the list; it returns a candidate carrying a primary health id
whenever one exists; and when none carries a phid it returns a candidate
with the greatest number of populated identifier fields.  Being a pure
function of the list, repeated selection over the same list returns the
same candidate. -/
theorem C7_candidate_selection (l : List SimplifiedPatient) (hne : l ≠ []) :
    (∃ p, selectBestCandidate l = some p ∧ p ∈ l) ∧
    ((∃ p ∈ l, strTruthy p.identifiers.phid = true) →
      ∃ p, selectBestCandidate l = some p ∧ strTruthy p.identifiers.phid = true) ∧
    ((∀ p ∈ l, strTruthy p.identifiers.phid = false) →
      ∃ p, selectBestCandidate l = some p ∧
        ∀ q ∈ l, countIdentifiers q ≤ countIdentifiers p) := by
  match l, hne with
  | p :: rest, _ =>
    by_cases hrest : rest.isEmpty
    · have hr : rest = [] := by simpa [List.isEmpty_iff] using hrest
      subst hr
      refine ⟨⟨p, by simp [selectBestCandidate], by simp⟩, ?_, ?_⟩
      · rintro ⟨q, hq, hphid⟩
        simp only [List.mem_singleton, List.mem_cons, List.not_mem_nil, or_false] at hq
        exact ⟨p, by simp [selectBestCandidate], hq ▸ hphid⟩
      · intro _
        refine ⟨p, by simp [selectBestCandidate], ?_⟩
        intro q hq
        simp only [List.mem_cons, List.not_mem_nil, or_false] at hq
        exact hq ▸ le_refl _
    · cases hf : (p :: rest).find? (fun q => strTruthy q.identifiers.phid) with
      | some q =>
        have hqmem : q ∈ p :: rest := List.mem_of_find?_eq_some hf
        have hqphid : strTruthy q.identifiers.phid = true := by
          simpa using List.find?_some hf
        have hsel : selectBestCandidate (p :: rest) = some q := by
          simp [selectBestCandidate, hrest, hf]
        refine ⟨⟨q, hsel, hqmem⟩, fun _ => ⟨q, hsel, hqphid⟩, ?_⟩
        intro hnone
        exact absurd hqphid (by simp [hnone q hqmem])
      | none =>
        have hnophid : ∀ x ∈ p :: rest, ¬ strTruthy x.identifiers.phid = true := by
          intro x hx
          simpa using List.find?_eq_none.mp hf x hx
        have hsel : selectBestCandidate (p :: rest) =
            some (rest.foldl (fun best cur =>
              if countIdentifiers cur > countIdentifiers best then cur else best) p) := by
          simp [selectBestCandidate, hrest, hf]
        rcases foldlBest_mem_le countIdentifiers rest p with ⟨hmem, hle, hall⟩
        refine ⟨⟨_, hsel, ?_⟩, ?_, ?_⟩
        · rcases hmem with h | h
          · rw [h]; exact List.mem_cons_self _ _
          · exact List.mem_cons_of_mem _ h
        · rintro ⟨q, hq, hphid⟩
          exact absurd hphid (hnophid q hq)
        · intro _
          refine ⟨_, hsel, ?_⟩
          intro q hq
          rcases List.mem_cons.mp hq with rfl | hq
          · exact hle
          · exact hall q hq

/-- C7 witness: the selection theorem applied at a concrete two-element
candidate list whose second candidate carries a phid. -/
theorem C7_candidate_selection_witness :
    (∃ p, selectBestCandidate demoCandidates = some p ∧ p ∈ demoCandidates) ∧
    ((∃ p ∈ demoCandidates, strTruthy p.identifiers.phid = true) →
      ∃ p, selectBestCandidate demoCandidates = some p ∧
        strTruthy p.identifiers.phid = true) ∧
    ((∀ p ∈ demoCandidates, strTruthy p.identifiers.phid = false) →
      ∃ p, selectBestCandidate demoCandidates = some p ∧
        ∀ q ∈ demoCandidates, countIdentifiers q ≤ countIdentifiers p) :=
  C7_candidate_selection demoCandidates (by decide)

/-- C3 counterexample: a non-empty patient batch whose single row fails
validation (its program-specific id `"BAD"` is malformed) does NOT
commit the watermark — the tick returns before the commit — although the
claim asserts the patient stream commits to the last row's timestamp on
every non-empty batch regardless of failures. -/
theorem C3_counterexample :
    patientTickCommit dateEnv0 "client" "2026-02-03" [rowBadId]
      (fun _ _ => some 200) = none ∧
    patientTickCommit dateEnv0 "client" "2026-02-03" [rowBadId]
      (fun _ _ => some 200) ≠ some rowBadId.date_time_admission := by
  exact ⟨by decide, by decide⟩

/-- C3 (amended): the patient stream's commit decision is independent of
the transmission outcomes and equals the last row's admission timestamp
whenever at least one row of the batch passed validation (an
all-invalid batch returns without committing); the observation stream
commits its watermark exactly when `totalFailed = 0`, leaving it
unchanged when any row of the batch failed mapping, validation or
transmission — concretely, a single-row batch whose push settles with
HTTP 500 on every attempt ends with one failure and no commit. -/
theorem C3_watermark_commit_policy :
    (∀ (env : DateEnv) (cid today : String) (rows : List CareRow)
        (o1 o2 : Nat → Nat → Option Nat),
      patientTickCommit env cid today rows o1 = patientTickCommit env cid today rows o2) ∧
    (∀ (env : DateEnv) (cid today : String) (rows : List CareRow) (lastRow : CareRow)
        (o : Nat → Nat → Option Nat),
      rows.getLast? = some lastRow →
      (∃ r ∈ rows, PatientValidator.valid today
          (PatientValidator.sanitize (PatientMapper.map env (some cid) r)) = true) →
      patientTickCommit env cid today rows o = some lastRow.date_time_admission) ∧
    (∀ (env : DateEnv) (cid : String) (verify : String → Option String)
        (oracle : Nat → Nat → Nat → Option Nat) (rows : List QRow) (lastRow : QRow),
      rows.getLast? = some lastRow →
      ((observationTick env cid verify oracle rows).totalFailed = 0 →
        (observationTick env cid verify oracle rows).commit =
          some (observationCommitValue lastRow)) ∧
      ((observationTick env cid verify oracle rows).totalFailed ≠ 0 →
        (observationTick env cid verify oracle rows).commit = none)) ∧
    observationTick dateEnv0 "c" (fun _ => some "R1") (fun _ _ _ => some 500) [rowQ42] =
      { totalSuccess := 0, totalFailed := 1, totalQueued := 0, commit := none } := by
  refine ⟨fun _ _ _ _ _ _ => rfl, ?_, ?_, by decide⟩
  · intro env cid today rows lastRow o hlast hex
    rcases hex with ⟨r, hr, hv⟩
    have hmem : r ∈ rows.filter (fun row =>
        PatientValidator.valid today
          (PatientValidator.sanitize (PatientMapper.map env (some cid) row))) :=
      List.mem_filter.mpr ⟨hr, by simpa using hv⟩
    have hne : rows.filter (fun row =>
        PatientValidator.valid today
          (PatientValidator.sanitize (PatientMapper.map env (some cid) row))) ≠ [] :=
      List.ne_nil_of_mem hmem
    have hie : (rows.filter (fun row =>
        PatientValidator.valid today
          (PatientValidator.sanitize (PatientMapper.map env (some cid) row)))).isEmpty
        = false := by
      cases h' : rows.filter (fun row =>
        PatientValidator.valid today
          (PatientValidator.sanitize (PatientMapper.map env (some cid) row))) with
      | nil => exact absurd h' hne
      | cons a t => rfl
    simp [patientTickCommit, hlast, hie]
  · intro env cid verify oracle rows lastRow hlast
    constructor
    · intro h0
      simp only [observationTick, hlast] at h0 ⊢
      simp [h0]
    · intro h0
      simp only [observationTick, hlast] at h0 ⊢
      simp only [ite_eq_right_iff]
      intro hc
      simp [hc] at h0

/-- C3 witness: the commit policy applied at concrete batches — a valid
patient row commits despite every push failing with 404, and a fully
successful observation batch commits. -/
theorem C3_watermark_commit_policy_witness :
    patientTickCommit dateEnv0 "c" "2026-02-03" [rowBothIds] oracle404 =
      some rowBothIds.date_time_admission ∧
    (observationTick dateEnv0 "c" (fun _ => some "R1")
        (fun _ _ _ => some 201) [rowQ42]).commit =
      some (observationCommitValue rowQ42) :=
  ⟨C3_watermark_commit_policy.2.1 dateEnv0 "c" "2026-02-03" [rowBothIds] rowBothIds
      oracle404 (by decide) ⟨rowBothIds, by decide, by decide⟩,
   (C3_watermark_commit_policy.2.2.1 dateEnv0 "c" (fun _ => some "R1")
      (fun _ _ _ => some 201) [rowQ42] rowQ42 (by decide)).1 (by decide)⟩

/-- Helper: the client retry loop issues at most one request per
reachable attempt index. -/
theorem postJsonLoop_requests_le (resp : Nat → HttpOutcome) (retries : Nat) :
    ∀ (as : List Nat) (d : Nat),
      (postJsonLoop resp retries as d).requests ≤ as.length := by
  intro as
  induction as with
  | nil => intro d; simp [postJsonLoop]
  | cons a rest ih =>
    intro d
    cases hh : resp a with
    | status s =>
      by_cases h1 : 200 ≤ s ∧ s < 300
      · simp [postJsonLoop, hh, h1]
      · by_cases h2 : a < retries
        · have := ih (d * 2)
          simp only [postJsonLoop, hh, if_neg h1, if_pos h2]
          simpa using Nat.succ_le_succ this
        · simp [postJsonLoop, hh, h1, h2]
    | transportError =>
      by_cases h1 : a + 1 > retries
      · simp [postJsonLoop, hh, h1]
      · have := ih (d * 2)
        simp only [postJsonLoop, hh, if_neg h1]
        simpa using Nat.succ_le_succ this

/-- Helper: the client retry loop's sleep sequence is a doubling run
starting at the current delay. -/
theorem postJsonLoop_delays_geom (resp : Nat → HttpOutcome) (retries : Nat) :
    ∀ (as : List Nat) (d : Nat),
      ∃ n, (postJsonLoop resp retries as d).delays = geomRun d n := by
  intro as
  induction as with
  | nil => exact fun d => ⟨0, rfl⟩
  | cons a rest ih =>
    intro d
    cases hh : resp a with
    | status s =>
      by_cases h1 : 200 ≤ s ∧ s < 300
      · exact ⟨0, by simp [postJsonLoop, hh, h1, geomRun]⟩
      · by_cases h2 : a < retries
        · rcases ih (d * 2) with ⟨n, hn⟩
          exact ⟨n + 1, by simp [postJsonLoop, hh, h1, h2, geomRun, hn]⟩
        · exact ⟨0, by simp [postJsonLoop, hh, h1, h2, geomRun]⟩
    | transportError =>
      by_cases h1 : a + 1 > retries
      · exact ⟨0, by simp [postJsonLoop, hh, h1, geomRun]⟩
      · rcases ih (d * 2) with ⟨n, hn⟩
        exact ⟨n + 1, by simp [postJsonLoop, hh, h1, geomRun, hn]⟩

/-- Helper: the pipeline attempt loop runs at most one attempt per
index in its attempt list. -/
theorem pushOneLoop_attempts_le (presp : Nat → Option Nat) (m : Nat) :
    ∀ as : List Nat, (pushOneLoop presp m as).2.1 ≤ as.length := by
  intro as
  induction as with
  | nil => simp [pushOneLoop]
  | cons a rest ih =>
    cases hh : presp a with
    | some s =>
      by_cases h1 : 200 ≤ s ∧ s < 300
      · simp [pushOneLoop, hh, h1]
      · by_cases h2 : 500 ≤ s ∧ a < m
        · simp only [pushOneLoop, hh, if_neg h1, if_pos h2]
          simpa using Nat.succ_le_succ ih
        · simp [pushOneLoop, hh, h1, h2]
    | none =>
      by_cases h1 : a < m
      · simp only [pushOneLoop, hh, if_pos h1]
        simpa using Nat.succ_le_succ ih
      · simp [pushOneLoop, hh, h1]

/-- Helper: the pipeline attempt loop sleeps `1000 * attempt` for a
leading segment of its attempt list, every slept attempt being below the
retry bound. -/
theorem pushOneLoop_delays (presp : Nat → Option Nat) (m : Nat) :
    ∀ as : List Nat, ∃ n,
      (pushOneLoop presp m as).2.2 = (as.take n).map (fun a => 1000 * a) ∧
      ∀ a ∈ as.take n, a < m := by
  intro as
  induction as with
  | nil => exact ⟨0, by simp [pushOneLoop], by simp⟩
  | cons a rest ih =>
    cases hh : presp a with
    | some s =>
      by_cases h1 : 200 ≤ s ∧ s < 300
      · exact ⟨0, by simp [pushOneLoop, hh, h1], by simp⟩
      · by_cases h2 : 500 ≤ s ∧ a < m
        · rcases ih with ⟨n, hn, hlt⟩
          refine ⟨n + 1, ?_, ?_⟩
          · simp [pushOneLoop, hh, h1, h2, hn]
          · intro x hx
            rcases List.mem_cons.mp (by simpa using hx) with rfl | hx'
            · exact h2.2
            · exact hlt x hx'
        · exact ⟨0, by simp [pushOneLoop, hh, h1, h2], by simp⟩
    | none =>
      by_cases h1 : a < m
      · rcases ih with ⟨n, hn, hlt⟩
        refine ⟨n + 1, ?_, ?_⟩
        · simp [pushOneLoop, hh, h1, hn]
        · intro x hx
          rcases List.mem_cons.mp (by simpa using hx) with rfl | hx'
          · exact h1
          · exact hlt x hx'
      · exact ⟨0, by simp [pushOneLoop, hh, h1], by simp⟩

/-- Helper: with the default budget, the per-observation delays are a
doubling run from 1000 ms of length at most 2. -/
theorem pushOne_delays_geom (presp : Nat → Option Nat) :
    ∃ n, n ≤ 2 ∧ (pushOne presp).delays = geomRun 1000 n := by
  have e : List.range' 1 3 = [1, 2, 3] := rfl
  rcases pushOneLoop_delays presp 3 [1, 2, 3] with ⟨n, hn, hlt⟩
  match n, hn, hlt with
  | 0, hn, _ => exact ⟨0, by omega, by simp [pushOne, e, hn, geomRun]⟩
  | 1, hn, _ => exact ⟨1, by omega, by simp [pushOne, e, hn, geomRun]⟩
  | 2, hn, _ => exact ⟨2, by omega, by simp [pushOne, e, hn, geomRun]⟩
  | n + 3, hn, hlt => exact absurd (hlt 3 (by simp)) (by omega)

/-- C4 counterexample: a write whose server persistently answers
HTTP 404 — which the claim calls non-retryable and bounded to 3
attempts — is issued 4 times by the HTTP client (`postJson` with its
default budget), sleeping 250, 500 and 1000 ms between the attempts,
before the 404 is surfaced. -/
theorem C4_counterexample :
    (postJson (fun _ => HttpOutcome.status 404)).requests = 4 ∧
    (postJson (fun _ => HttpOutcome.status 404)).delays = [250, 500, 1000] ∧
    (postJson (fun _ => HttpOutcome.status 404)).result = Except.ok 404 := by
  exact ⟨by decide, by decide, by rfl⟩

/-- C4 (amended): at the observation-pipeline level the policy of the
claim holds — at most 3 attempts; the at most two sleeps double from a
1000 ms base; a first-attempt 4xx is never retried there and is routed
to the dead-letter sink; persistent 5xx answers exhaust the 3 attempts
and are then dead-lettered — but each pipeline attempt's underlying HTTP
call itself re-issues any non-2xx (4xx included) or transport failure up
to 3 more times with a 250 ms doubling back-off, and patient writes
return any HTTP status (4xx and 5xx included) from the first attempt
without retry and without dead-lettering, retrying only thrown
transport errors. -/
theorem C4_retry_policy :
    (∀ presp : Nat → Option Nat, (pushOne presp).attempts ≤ 3) ∧
    (∀ presp : Nat → Option Nat, ∃ n, n ≤ 2 ∧ (pushOne presp).delays = geomRun 1000 n) ∧
    (∀ (presp : Nat → Option Nat) (s : Nat), presp 1 = some s → 400 ≤ s → s < 500 →
      pushOne presp = ⟨false, 1, [], true⟩) ∧
    (∀ (presp : Nat → Option Nat) (s1 s2 s3 : Nat), presp 1 = some s1 →
      presp 2 = some s2 → presp 3 = some s3 → 500 ≤ s1 → 500 ≤ s2 → 500 ≤ s3 →
      pushOne presp = ⟨false, 3, [1000, 2000], true⟩) ∧
    (∀ resp : Nat → HttpOutcome, (postJson resp).requests ≤ 4) ∧
    (∀ resp : Nat → HttpOutcome, ∃ n, (postJson resp).delays = geomRun 250 n) ∧
    (∀ (presp : Nat → Option Nat) (s : Nat), presp 1 = some s →
      pushPatientWithRetry presp = ⟨Except.ok s, 1, []⟩) := by
  have e : List.range' 1 3 = [1, 2, 3] := rfl
  refine ⟨?_, pushOne_delays_geom, ?_, ?_, ?_, ?_, ?_⟩
  · intro presp
    have := pushOneLoop_attempts_le presp 3 [1, 2, 3]
    simpa [pushOne, e] using this
  · intro presp s h h4 h5
    have c1 : ¬(200 ≤ s ∧ s < 300) := by omega
    have c2 : ¬ 500 ≤ s := by omega
    simp [pushOne, e, pushOneLoop, h, c1, c2]
  · intro presp s1 s2 s3 h1 h2 h3 hs1 hs2 hs3
    have c1 : ¬(200 ≤ s1 ∧ s1 < 300) := by omega
    have c2 : ¬(200 ≤ s2 ∧ s2 < 300) := by omega
    have c3 : ¬(200 ≤ s3 ∧ s3 < 300) := by omega
    simp [pushOne, e, pushOneLoop, h1, h2, h3, c1, c2, c3, hs1, hs2, hs3]
  · intro resp
    have := postJsonLoop_requests_le resp 3 (List.range 4) 250
    simpa [postJson] using this
  · intro resp
    simpa [postJson] using postJsonLoop_delays_geom resp 3 (List.range 4) 250
  · intro presp s h
    simp [pushPatientWithRetry, e, pushPatientLoop, h]

/-- C4 witness: the amended policy evaluated at concrete oracles — a
first-attempt 404 is dead-lettered after one pipeline attempt, a
persistent 503 exhausts the three pipeline attempts with the doubling
sleeps, and a patient write settling with 503 is returned unretried. -/
theorem C4_retry_policy_witness :
    (pushOne (fun _ => some 404)).attempts ≤ 3 ∧
    pushOne (fun _ => some 404) = ⟨false, 1, [], true⟩ ∧
    pushOne (fun _ => some 503) = ⟨false, 3, [1000, 2000], true⟩ ∧
    pushPatientWithRetry (fun _ => some 503) = ⟨Except.ok 503, 1, []⟩ :=
  ⟨C4_retry_policy.1 (fun _ => some 404),
   C4_retry_policy.2.2.1 (fun _ => some 404) 404 rfl (by decide) (by decide),
   C4_retry_policy.2.2.2.1 (fun _ => some 503) 503 503 503 rfl rfl rfl
     (by decide) (by decide) (by decide),
   C4_retry_policy.2.2.2.2.2.2 (fun _ => some 503) 503 rfl⟩

/-- Helper: `formatDateTime` applied to a JSON value throws exactly for
truthy non-string arguments (non-zero numbers and `true`). -/
theorem formatDateTimeVal_error_iff (env : DateEnv) (v : Option JsVal) :
    (∃ e, formatDateTimeVal env v = .error e) ↔ badDateArg v = true := by
  cases v with
  | none => simp [formatDateTimeVal, badDateArg]
  | some jv =>
    cases jv with
    | str s => by_cases hs : s.isEmpty <;> simp [formatDateTimeVal, badDateArg, hs]
    | num n => by_cases hn : n = 0 <;> simp [formatDateTimeVal, badDateArg, hn]
    | bool b => cases b <;> simp [formatDateTimeVal, badDateArg]
    | null => simp [formatDateTimeVal, badDateArg]

/-- Helper: value extraction throws exactly when there is a first JSON
value, the row type selects the `datetime`/`date` branch, and the value
is a throwing `formatDateTime` argument; every other path returns. -/
theorem extractValue_error_iff (env : DateEnv) (values : List ValueEntry)
    (type : String) (dv : Option String) :
    (∃ e, extractValue env values type dv = .error e) ↔
      (∃ fv, values.head? = some fv ∧
        (jsLower type = "datetime" ∨ jsLower type = "date") ∧
        badDateArg fv.value = true) := by
  cases hv : values.head? with
  | none =>
    constructor
    · rintro ⟨e, he⟩
      by_cases hd : strTruthy dv = true <;> simp [extractValue, hv, hd] at he
    · rintro ⟨fv, hfv, -⟩
      simp at hfv
  | some fv =>
    constructor
    · rintro ⟨e, he⟩
      by_cases h1 : jsLower type = "number"
      · exfalso
        simp only [extractValue, hv] at he
        rw [if_pos h1] at he
        split at he <;> simp at he
      · by_cases h2 : jsLower type = "boolean"
        · exfalso
          simp only [extractValue, hv] at he
          rw [if_neg h1, if_pos h2] at he
          simp at he
        · by_cases h3 : jsLower type = "datetime" ∨ jsLower type = "date"
          · have h3b : (decide (jsLower type = "datetime") ||
                decide (jsLower type = "date")) = true := by
              rcases h3 with h | h <;> simp [h]
            rcases hdt : formatDateTimeVal env fv.value with e' | v'
            · exact ⟨fv, rfl, h3,
                (formatDateTimeVal_error_iff env fv.value).mp ⟨e', hdt⟩⟩
            · exfalso
              simp only [extractValue, hv] at he
              rw [if_neg h1, if_neg h2, if_pos h3b, hdt] at he
              rcases v' with _ | s <;> simp at he
          · exfalso
            push_neg at h3
            have h3b : ¬ ((decide (jsLower type = "datetime") ||
                decide (jsLower type = "date")) = true) := by
              simp [h3.1, h3.2]
            simp only [extractValue, hv] at he
            rw [if_neg h1, if_neg h2, if_neg h3b] at he
            split at he <;> simp at he
    · rintro ⟨fv', hfv', htype, hbad⟩
      injection hfv' with hfv2
      subst hfv2
      have h1 : ¬ jsLower type = "number" := by
        rcases htype with h | h <;> rw [h] <;> decide
      have h2 : ¬ jsLower type = "boolean" := by
        rcases htype with h | h <;> rw [h] <;> decide
      have h3b : (decide (jsLower type = "datetime") ||
          decide (jsLower type = "date")) = true := by
        rcases htype with h | h <;> simp [h]
      rcases (formatDateTimeVal_error_iff env fv.value).mpr hbad with ⟨e, hdt⟩
      refine ⟨e, ?_⟩
      simp only [extractValue, hv]
      rw [if_neg h1, if_neg h2, if_pos h3b, hdt]

/-- C10 counterexample: a row of type `datetime` whose first JSON value
is the number `5` makes the mapper throw (a `TypeError` from calling
`getTime` on a non-`Date` value), refuting "the observation mapper never
throws" as a universal statement. -/
theorem C10_counterexample :
    ObservationMapper.map dateEnv0 "c" rowDt5 (some "R1") =
      .error "TypeError: getTime is not a function" := by
  rfl

/-- C10 (amended): for every row whose `data` payload is unparsable the
mapper returns an Observation resource, with the extracted value falling
back to the row's `display_value` or omitted entirely; and in general
the mapper throws exactly when the row has a first JSON value, the row
type selects the `datetime`/`date` branch, and that value is a truthy
non-string (so it never throws for unparsable payloads or null/missing
optional fields). -/
theorem C10_mapper_totality :
    (∀ (env : DateEnv) (cid : String) (row : QRow) (pid : Option String),
      row.dataValues = none →
      ∃ o, ObservationMapper.map env cid row pid = .ok o ∧
        o.resourceType = "Observation" ∧
        o.value = (if strTruthy row.display_value then
          some (ObsValue.vStr (row.display_value.getD "")) else none)) ∧
    (∀ (env : DateEnv) (cid : String) (row : QRow) (pid : Option String),
      (∃ e, ObservationMapper.map env cid row pid = .error e) ↔
        (∃ fv, (row.dataValues.getD []).head? = some fv ∧
          (jsLower row.type = "datetime" ∨ jsLower row.type = "date") ∧
          badDateArg fv.value = true)) := by
  constructor
  · intro env cid row pid h
    have hx : extractValue env (row.dataValues.getD []) row.type
        row.display_value = .ok (if strTruthy row.display_value then
          some (ObsValue.vStr (row.display_value.getD "")) else none) := by
      by_cases hd : strTruthy row.display_value = true <;>
        simp [h, extractValue, hd]
    rcases hm : ObservationMapper.map env cid row pid with e | o
    · exfalso
      simp [ObservationMapper.map, hx] at hm
    · simp only [ObservationMapper.map, hx] at hm
      injection hm with ho
      exact ⟨o, rfl, by rw [← ho], by rw [← ho]⟩
  · intro env cid row pid
    constructor
    · rintro ⟨e, he⟩
      rcases hx : extractValue env (row.dataValues.getD []) row.type
          row.display_value with e' | v
      · exact (extractValue_error_iff env _ row.type row.display_value).mp ⟨e', hx⟩
      · simp [ObservationMapper.map, hx] at he
    · intro h
      rcases (extractValue_error_iff env (row.dataValues.getD []) row.type
          row.display_value).mpr h with ⟨e, hx⟩
      exact ⟨e, by simp [ObservationMapper.map, hx]⟩

/-- C10 witness: the totality clause at a concrete row with an
unparsable payload and a populated `display_value`. -/
theorem C10_mapper_totality_witness :
    rowQ42.dataValues = none ∧
    ∃ o, ObservationMapper.map dateEnv0 "c" rowQ42 (some "R9") = .ok o ∧
      o.resourceType = "Observation" ∧
      o.value = (if strTruthy rowQ42.display_value then
        some (ObsValue.vStr (rowQ42.display_value.getD "")) else none) :=
  ⟨rfl, C10_mapper_totality.1 dateEnv0 "c" rowQ42 (some "R9") rfl⟩

/-- Helper: membership under sorted insertion. -/
theorem mem_insertBy {α : Type} (r : α → α → Bool) (a x : α) :
    ∀ l : List α, x ∈ insertBy r a l ↔ x = a ∨ x ∈ l := by
  intro l
  induction l with
  | nil => simp [insertBy]
  | cons b bs ih =>
    simp only [insertBy]
    split
    · simp only [List.mem_cons, ih]
      tauto
    · simp [List.mem_cons]

/-- Helper: sorted insertion preserves pairwise sortedness for a total
transitive comparison. -/
theorem pairwise_insertBy {α : Type} (r : α → α → Bool)
    (htot : ∀ a b, r a b = true ∨ r b a = true)
    (htrans : ∀ a b c, r a b = true → r b c = true → r a c = true) (a : α) :
    ∀ l : List α, l.Pairwise (fun x y => r x y = true) →
      (insertBy r a l).Pairwise (fun x y => r x y = true) := by
  intro l
  induction l with
  | nil => intro _; simp [insertBy]
  | cons b bs ih =>
    intro hp
    rcases List.pairwise_cons.mp hp with ⟨hb, hbs⟩
    simp only [insertBy]
    split
    case isTrue hba =>
      refine List.pairwise_cons.mpr ⟨?_, ih hbs⟩
      intro x hx
      rcases (mem_insertBy r a x bs).mp hx with rfl | hx'
      · exact hba
      · exact hb x hx'
    case isFalse hba =>
      have hab : r a b = true := by
        rcases htot a b with h | h
        · exact h
        · exact absurd h hba
      refine List.pairwise_cons.mpr ⟨?_, hp⟩
      intro x hx
      rcases List.mem_cons.mp hx with rfl | hx'
      · exact hab
      · exact htrans a b x hab (hb x hx')

/-- Helper: the insertion sort returns a pairwise-sorted list. -/
theorem pairwise_sortBy {α : Type} (r : α → α → Bool)
    (htot : ∀ a b, r a b = true ∨ r b a = true)
    (htrans : ∀ a b c, r a b = true → r b c = true → r a c = true) :
    ∀ l : List α, (sortBy r l).Pairwise (fun x y => r x y = true) := by
  intro l
  induction l with
  | nil => simp [sortBy]
  | cons b bs ih => exact pairwise_insertBy r htot htrans b _ ih

/-- Helper: the insertion sort is a permutation membership-wise. -/
theorem mem_sortBy {α : Type} (r : α → α → Bool) (x : α) :
    ∀ l : List α, x ∈ sortBy r l ↔ x ∈ l := by
  intro l
  induction l with
  | nil => simp [sortBy]
  | cons b bs ih =>
    show x ∈ insertBy r b (sortBy r bs) ↔ _
    rw [mem_insertBy, ih]
    simp

/-- Helper: totality of the observation ordering key. -/
theorem qRowLe_total (a b : DbQRow) : qRowLe a b = true ∨ qRowLe b a = true := by
  rcases ha : a.date with _ | da <;> rcases hb : b.date with _ | db <;>
    simp only [qRowLe, ha, hb, decide_eq_true_eq] <;>
    first
      | omega
      | (split_ifs <;> simp only [decide_eq_true_eq] <;> omega)
      | simp

/-- Helper: transitivity of the observation ordering key. -/
theorem qRowLe_trans (a b c : DbQRow) (h1 : qRowLe a b = true)
    (h2 : qRowLe b c = true) : qRowLe a c = true := by
  rcases ha : a.date with _ | da <;> rcases hb : b.date with _ | db <;>
    rcases hc : c.date with _ | dc <;>
    simp only [qRowLe, ha, hb, hc, decide_eq_true_eq] at h1 h2 ⊢ <;>
    first
      | trivial
      | omega
      | (exact absurd h1 Bool.false_ne_true)
      | (exact absurd h2 Bool.false_ne_true)
      | (split_ifs at h1 h2 ⊢ <;>
          simp only [decide_eq_true_eq] at h1 h2 ⊢ <;> omega)

/-- Helper: the observation key orders rows sharing a timestamp by id. -/
theorem qRowLe_tie (x y : DbQRow) (h : qRowLe x y = true)
    (hd : x.date = y.date) : x.id ≤ y.id := by
  rcases hx : x.date with _ | dx <;> rcases hy : y.date with _ | dy <;>
    rw [hx, hy] at hd <;> simp only [qRowLe, hx, hy] at h <;>
    first
      | simpa using h
      | simp at hd
      | skip
  rw [hd] at h
  rw [if_neg (by omega)] at h
  simpa using h

/-- Helper: totality of the patient ordering key. -/
theorem careRowLe_total (a b : DbCareRow) :
    careRowLe a b = true ∨ careRowLe b a = true := by
  simp only [careRowLe]
  split_ifs <;> simp only [decide_eq_true_eq] <;> omega

/-- Helper: transitivity of the patient ordering key. -/
theorem careRowLe_trans (a b c : DbCareRow) (h1 : careRowLe a b = true)
    (h2 : careRowLe b c = true) : careRowLe a c = true := by
  simp only [careRowLe] at h1 h2 ⊢
  split_ifs at h1 h2 ⊢ <;> simp only [decide_eq_true_eq] at h1 h2 ⊢ <;> omega

/-- Helper: the patient key orders rows sharing a timestamp by id. -/
theorem careRowLe_tie (x y : DbCareRow) (h : careRowLe x y = true)
    (hd : x.date = y.date) : x.id ≤ y.id := by
  rw [careRowLe, hd, if_neg (by omega)] at h
  simpa using h

/-- C9: both poll queries return only rows strictly above the watermark
under the stream's ordering column (rows with a `NULL` timestamp never
satisfy the bound), return them pairwise sorted by (timestamp, id) —
so two rows sharing a timestamp appear in id order, the deterministic
tie-break — and return at most `batch_size` rows. -/
theorem C9_poll_query_contract :
    (∀ (table : List DbQRow) (w : Int) (b : Nat),
      (∀ r ∈ fetchNeonatalQuestionsQ table (some w) b,
        ∃ d, r.date = some d ∧ w < d - tzOff) ∧
      (fetchNeonatalQuestionsQ table (some w) b).Pairwise
        (fun x y => qRowLe x y = true) ∧
      (fetchNeonatalQuestionsQ table (some w) b).Pairwise
        (fun x y => x.date = y.date → x.id ≤ y.id) ∧
      (fetchNeonatalQuestionsQ table (some w) b).length ≤ b) ∧
    (∀ (table : List DbCareRow) (w : Int) (b : Nat),
      (∀ r ∈ fetchNeonatalCareQ table (some w) b, w < r.date - tzOff) ∧
      (fetchNeonatalCareQ table (some w) b).Pairwise
        (fun x y => careRowLe x y = true) ∧
      (fetchNeonatalCareQ table (some w) b).Pairwise
        (fun x y => x.date = y.date → x.id ≤ y.id) ∧
      (fetchNeonatalCareQ table (some w) b).length ≤ b) := by
  constructor
  · intro table w b
    have hpair : (fetchNeonatalQuestionsQ table (some w) b).Pairwise
        (fun x y => qRowLe x y = true) :=
      List.Pairwise.sublist (List.take_sublist _ _)
        (pairwise_sortBy qRowLe qRowLe_total qRowLe_trans _)
    refine ⟨?_, hpair, ?_, ?_⟩
    · intro r hr
      have h1 : r ∈ sortBy qRowLe (table.filter (fun r =>
          match r.date with
          | some d => decide (w + tzOff < d)
          | none => false)) := List.mem_of_mem_take hr
      have h2 := (List.mem_filter.mp ((mem_sortBy _ r _).mp h1)).2
      rcases hd : r.date with _ | d
      · rw [hd] at h2
        simp at h2
      · rw [hd] at h2
        simp only [decide_eq_true_eq] at h2
        exact ⟨d, rfl, by omega⟩
    · exact hpair.imp (fun h hd => qRowLe_tie _ _ h hd)
    · rw [fetchNeonatalQuestionsQ, List.length_take]
      exact min_le_left _ _
  · intro table w b
    have hpair : (fetchNeonatalCareQ table (some w) b).Pairwise
        (fun x y => careRowLe x y = true) :=
      List.Pairwise.sublist (List.take_sublist _ _)
        (pairwise_sortBy careRowLe careRowLe_total careRowLe_trans _)
    refine ⟨?_, hpair, ?_, ?_⟩
    · intro r hr
      have h1 : r ∈ sortBy careRowLe (table.filter (fun r =>
          decide (w + tzOff < r.date))) := List.mem_of_mem_take hr
      have h2 := (List.mem_filter.mp ((mem_sortBy _ r _).mp h1)).2
      simp only [decide_eq_true_eq] at h2
      omega
    · exact hpair.imp (fun h hd => careRowLe_tie _ _ h hd)
    · rw [fetchNeonatalCareQ, List.length_take]
      exact min_le_left _ _

/-- C9 witness: the contract evaluated at a concrete four-row table
holding a timestamp tie, a `NULL`-dated row and a row below the
watermark. -/
theorem C9_poll_query_contract_witness :
    (∃ d, (DbQRow.mk (some 9000) 3).date = some d ∧ 1000 < d - tzOff) ∧
    (fetchNeonatalQuestionsQ demoQTable (some 1000) 2).Pairwise
      (fun x y => qRowLe x y = true) ∧
    (fetchNeonatalQuestionsQ demoQTable (some 1000) 2).length ≤ 2 :=
  ⟨(C9_poll_query_contract.1 demoQTable 1000 2).1 ⟨some 9000, 3⟩ (by decide),
   (C9_poll_query_contract.1 demoQTable 1000 2).2.1,
   (C9_poll_query_contract.1 demoQTable 1000 2).2.2.2⟩

/-- Helper: splitting never yields an empty part list. -/
theorem splitSep_ne_nil : ∀ l : List Char, splitSep l ≠ [] := by
  intro l
  induction l with
  | nil => simp [splitSep]
  | cons c cs ih =>
    by_cases hc : c = '-'
    · simp [splitSep, hc]
    · simp only [splitSep, if_neg hc]
      cases hsp : splitSep cs with
      | nil => simp
      | cons h t => simp

/-- Helper: rejoining the split parts recovers the original list. -/
theorem joinSep_splitSep : ∀ l : List Char, joinSep (splitSep l) = l := by
  intro l
  induction l with
  | nil => rfl
  | cons c cs ih =>
    by_cases hc : c = '-'
    · subst hc
      simp only [splitSep, if_pos rfl]
      cases hsp : splitSep cs with
      | nil => exact absurd hsp (splitSep_ne_nil cs)
      | cons h t =>
        rw [hsp] at ih
        show joinSep ([] :: h :: t) = '-' :: cs
        simp only [joinSep, List.nil_append]
        rw [ih]
    · simp only [splitSep, if_neg hc]
      cases hsp : splitSep cs with
      | nil => exact absurd hsp (splitSep_ne_nil cs)
      | cons h t =>
        rw [hsp] at ih
        cases t with
        | nil =>
          simp only [joinSep] at ih ⊢
          rw [ih]
        | cons h2 t2 =>
          simp only [joinSep, List.cons_append] at ih ⊢
          rw [ih]

/-- Helper: no split part contains the separator. -/
theorem not_sep_of_mem_splitSep :
    ∀ (l : List Char) (p : List Char), p ∈ splitSep l → '-' ∉ p := by
  intro l
  induction l with
  | nil =>
    intro p hp
    simp [splitSep] at hp
    subst hp
    simp
  | cons c cs ih =>
    intro p hp
    by_cases hc : c = '-'
    · simp only [splitSep, if_pos hc] at hp
      rcases List.mem_cons.mp hp with rfl | hp'
      · simp
      · exact ih p hp'
    · simp only [splitSep, if_neg hc] at hp
      cases hsp : splitSep cs with
      | nil => exact absurd hsp (splitSep_ne_nil cs)
      | cons h t =>
        rw [hsp] at hp
        rcases List.mem_cons.mp hp with rfl | hp'
        · intro hmem
          rcases List.mem_cons.mp hmem with heq | hmem'
          · exact hc heq.symm
          · exact ih h (by rw [hsp]; exact List.mem_cons_self _ _) hmem'
        · exact ih p (by rw [hsp]; exact List.mem_cons_of_mem _ hp')

/-- Helper: a separator-free list splits into itself. -/
theorem splitSep_no_sep (a : List Char) (h : '-' ∉ a) : splitSep a = [a] := by
  induction a with
  | nil => rfl
  | cons c cs ih =>
    have hc : ¬ c = '-' := fun hh => h (by rw [hh]; exact List.mem_cons_self _ _)
    have hcs : '-' ∉ cs := fun hh => h (List.mem_cons_of_mem _ hh)
    simp only [splitSep, if_neg hc, ih hcs]

/-- Helper: splitting peels a separator-free leading part. -/
theorem splitSep_append (a rest : List Char) (h : '-' ∉ a) :
    splitSep (a ++ '-' :: rest) = a :: splitSep rest := by
  induction a with
  | nil => simp [splitSep]
  | cons c cs ih =>
    have hc : ¬ c = '-' := fun hh => h (by rw [hh]; exact List.mem_cons_self _ _)
    have hcs : '-' ∉ cs := fun hh => h (List.mem_cons_of_mem _ hh)
    rw [List.cons_append]
    simp only [splitSep, if_neg hc, ih hcs]

/-- Helper: a digit character is not whitespace. -/
theorem isDigitChar_not_ws (c : Char) (h : isDigitChar c = true) :
    isWsChar c = false := by
  cases hw : isWsChar c with
  | false => rfl
  | true =>
    exfalso
    have hw' := hw
    simp only [isWsChar, Bool.or_eq_true, decide_eq_true_eq] at hw'
    rcases hw' with ((rfl | rfl) | rfl) | rfl <;> exact absurd h (by decide)

/-- Helper: a digit character is not a hyphen. -/
theorem isDigitChar_ne_dash (c : Char) (h : isDigitChar c = true) : c ≠ '-' := by
  intro hh
  subst hh
  exact absurd h (by decide)

/-- Helper: a digit character is not a plus sign. -/
theorem isDigitChar_ne_plus (c : Char) (h : isDigitChar c = true) : c ≠ '+' := by
  intro hh
  subst hh
  exact absurd h (by decide)

/-- Helper: a hex-digit character is not a hyphen. -/
theorem isHexChar_ne_dash (c : Char) (h : isHexChar c = true) : c ≠ '-' := by
  intro hh
  subst hh
  exact absurd h (by decide)

/-- Helper: a letter is not a hyphen. -/
theorem isLetterChar_ne_dash (c : Char) (h : isLetterChar c = true) : c ≠ '-' := by
  intro hh
  subst hh
  exact absurd h (by decide)

/-- Helper: a two-hex-digit group contains no hyphen. -/
theorem not_dash_of_hex2 (a : List Char) (h : hex2 a = true) : '-' ∉ a := by
  rcases a with _ | ⟨u, _ | ⟨v, _ | _⟩⟩ <;> simp [hex2] at h ⊢
  refine ⟨fun hh => ?_, fun hh => ?_⟩
  · subst hh
    exact absurd h.1 (by decide)
  · subst hh
    exact absurd h.2 (by decide)

/-- Helper: an all-digit group contains no hyphen. -/
theorem not_dash_of_all_digits (y : List Char) (h : y.all isDigitChar = true) :
    '-' ∉ y := by
  intro hm
  exact absurd (List.all_eq_true.mp h '-' hm) (by decide)

/-- Helper: `takeWhile` keeps a list all of whose elements satisfy the
predicate. -/
theorem takeWhile_of_all {p : Char → Bool} :
    ∀ l : List Char, l.all p = true → l.takeWhile p = l := by
  intro l
  induction l with
  | nil => simp
  | cons c cs ih =>
    intro h
    rw [List.all_cons, Bool.and_eq_true] at h
    rw [List.takeWhile_cons, if_pos h.1, ih h.2]

/-- Helper: `parseInt` of a non-empty all-digit string is its numeric
value. -/
theorem jsParseInt_digits (y : List Char) (hne : y ≠ [])
    (hall : y.all isDigitChar = true) :
    jsParseInt ⟨y⟩ = some ((digitsToNat y : Int)) := by
  cases y with
  | nil => exact absurd rfl hne
  | cons c cs =>
    rw [List.all_cons, Bool.and_eq_true] at hall
    have hld : dropLeadWs (c :: cs) = c :: cs := by
      rw [dropLeadWs, if_neg (by simp [isDigitChar_not_ws c hall.1])]
    have hcd : ¬ c = '-' := isDigitChar_ne_dash c hall.1
    have hcp : ¬ ((decide (c = '-') || decide (c = '+')) = true) := by
      simp only [Bool.or_eq_true, decide_eq_true_eq, not_or]
      exact ⟨hcd, isDigitChar_ne_plus c hall.1⟩
    have htw : (c :: cs).takeWhile isDigitChar = c :: cs :=
      takeWhile_of_all (c :: cs) (by rw [List.all_cons, Bool.and_eq_true]; exact hall)
    simp only [jsParseInt, hld, if_neg hcp, htw, if_neg hcd, one_mul]
    rw [if_neg (by simp)]

/-- Helper: a two-hex-digit group is non-empty. -/
theorem hex2_not_isEmpty (a : List Char) (h : hex2 a = true) :
    a.isEmpty = false := by
  rcases a with _ | ⟨u, t⟩
  · exact absurd h (by decide)
  · rfl

/-- C8: the program-specific identifier format check accepts a string
exactly when it is three two-hex-digit groups, a four-digit year between
1900 and 2100 inclusive, one ASCII letter, and a five-digit sequence,
joined by hyphens; in particular the sample id validates and its
year-3025 variant is rejected. -/
theorem C8_neotree_id_format :
    isValidNeotreeId "00-0A-34-2025-N-01031" = true ∧
    isValidNeotreeId "00-0A-34-3025-N-01031" = false ∧
    ∀ s : String, isValidNeotreeId s = true ↔ NeotreeIdSpec s := by
  refine ⟨by decide, by decide, ?_⟩
  intro s
  constructor
  · intro h
    have hre : neotreeRegexTest s = true := by
      cases hre : neotreeRegexTest s with
      | true => rfl
      | false => simp [isValidNeotreeId, hre] at h
    have hre0 := hre
    rcases hsp : splitSep s.data with
      _ | ⟨a, _ | ⟨b, _ | ⟨c, _ | ⟨y, _ | ⟨p, _ | ⟨x, _ | ⟨z, zs⟩⟩⟩⟩⟩⟩⟩ <;>
      simp only [neotreeRegexTest, hsp] at hre <;>
      try exact absurd hre Bool.false_ne_true
    rw [Bool.and_eq_true, Bool.and_eq_true, Bool.and_eq_true, Bool.and_eq_true,
      Bool.and_eq_true] at hre
    obtain ⟨⟨⟨⟨⟨ha2, hb2⟩, hc2⟩, hy⟩, hp1⟩, hx5⟩ := hre
    rw [Bool.and_eq_true, decide_eq_true_eq] at hy hx5
    have hy4 : y.length = 4 := hy.1
    have hydig : y.all isDigitChar = true := hy.2
    have hx5l : x.length = 5 := hx5.1
    have hxdig : x.all isDigitChar = true := hx5.2
    have hyne : y ≠ [] := by
      intro hh
      rw [hh] at hy4
      simp at hy4
    have hye : y.isEmpty = false := by
      cases y with
      | nil => exact absurd rfl hyne
      | cons _ _ => rfl
    have hxe : x.isEmpty = false := by
      cases x with
      | nil => simp at hx5l
      | cons _ _ => rfl
    obtain ⟨ch, rfl, hch⟩ : ∃ ch, p = [ch] ∧ isLetterChar ch = true := by
      rcases p with _ | ⟨ch, _ | ⟨c2, t⟩⟩
      · exact absurd hp1 (by simp)
      · exact ⟨ch, rfl, hp1⟩
      · exact absurd hp1 (by simp)
    have hparse := jsParseInt_digits y hyne hydig
    have hdata : s.data =
        a ++ '-' :: (b ++ '-' :: (c ++ '-' :: (y ++ '-' :: ([ch] ++ '-' :: x)))) := by
      have hj := joinSep_splitSep s.data
      rw [hsp] at hj
      simpa [joinSep] using hj.symm
    have hyear : ¬ ((digitsToNat y : Int) < 1900 ∨ (digitsToNat y : Int) > 2100) := by
      intro hcon
      simp only [isValidNeotreeId, hsp, hparse] at h
      rw [if_neg (by simp [hre0])] at h
      rw [if_neg (by simp [hex2_not_isEmpty a ha2, hex2_not_isEmpty b hb2,
        hex2_not_isEmpty c hc2, hye, hxe])] at h
      rw [if_neg (by simp [ha2, hb2, hc2])] at h
      rw [if_pos (by simp only [Bool.or_eq_true, decide_eq_true_eq]; exact hcon)]
        at h
      exact absurd h (by simp)
    refine ⟨a, b, c, y, [ch], x, hdata, ha2, hb2, hc2, hy4, hydig, ?_, ?_,
      ⟨ch, rfl, hch⟩, hx5l, hxdig⟩
    · omega
    · omega
  · rintro ⟨a, b, c, y, p, x, hdata, ha2, hb2, hc2, hy4, hydig, hylo, hyhi,
      ⟨ch, rfl, hch⟩, hx5l, hxdig⟩
    have hyne : y ≠ [] := by
      intro hh
      rw [hh] at hy4
      simp at hy4
    have hye : y.isEmpty = false := by
      cases y with
      | nil => exact absurd rfl hyne
      | cons _ _ => rfl
    have hxe : x.isEmpty = false := by
      cases x with
      | nil => simp at hx5l
      | cons _ _ => rfl
    have hchd : ('-' : Char) ∉ [ch] := by
      intro hm
      rcases List.mem_singleton.mp hm with rfl
      exact absurd hch (by decide)
    have hsp : splitSep s.data = [a, b, c, y, [ch], x] := by
      rw [hdata,
        splitSep_append a _ (not_dash_of_hex2 a ha2),
        splitSep_append b _ (not_dash_of_hex2 b hb2),
        splitSep_append c _ (not_dash_of_hex2 c hc2),
        splitSep_append y _ (not_dash_of_all_digits y hydig),
        splitSep_append [ch] _ hchd,
        splitSep_no_sep x (not_dash_of_all_digits x hxdig)]
    have hre : neotreeRegexTest s = true := by
      simp [neotreeRegexTest, hsp, ha2, hb2, hc2, hy4, hydig, hch, hx5l, hxdig]
    have hparse := jsParseInt_digits y hyne hydig
    simp only [isValidNeotreeId, hsp, hparse]
    rw [if_neg (by simp [hre])]
    rw [if_neg (by simp [hex2_not_isEmpty a ha2, hex2_not_isEmpty b hb2,
      hex2_not_isEmpty c hc2, hye, hxe])]
    rw [if_neg (by simp [ha2, hb2, hc2])]
    rw [if_neg (by
      simp only [Bool.or_eq_true, decide_eq_true_eq]
      omega)]
    rw [if_neg (by simp [hch])]
    simp [hx5l, hxdig]

/-- C8 witness: the specification reading of the format, established at
the concrete sample id through the equivalence. -/
theorem C8_neotree_id_format_witness :
    NeotreeIdSpec "00-0A-34-2025-N-01031" :=
  (C8_neotree_id_format.2.2 "00-0A-34-2025-N-01031").mp (by decide)

end ImpiloBridge
